import Mathlib

/-!
# Stack-Underflow post resolvers

A shallow embedding of `server/graphql/resolvers/posts.js`: the document store is
a list of posts in storage order, every resolver is a pure function from the
store (and its arguments) to a result or an error, and the mutations also
return the store they leave behind.  The functions of the MongoDB driver that
the resolvers call (`ObjectID.isValid`, `new ObjectID`, the identifier cast of
`findById`, the `$regex` operator) are fields of a `Driver` that every theorem
quantifies over.
-/

namespace StackUnderflow

/-! ## Data model -/

/-- One element of `question.upvotes` / `question.downvotes`. -/
structure Vote where
  username : String
  createdAt : String
deriving DecidableEq, Repr

/-- One element of `question.tags`. -/
structure Tag where
  name : String
deriving DecidableEq, Repr

/-- The `question` sub-document of a post, with the fields the resolvers read and write. -/
structure Question where
  title : String
  body : String
  tags : List Tag
  username : String
  upvotes : List Vote
  downvotes : List Vote
  voteCount : Int
deriving DecidableEq, Repr

/-- Modelled from the spec: the `Post` document of `Models/Post` (the schema is not
part of the sources); the fields are the ones the resolvers use, `id` is `_id` and
`user` is the owner's identifier. -/
structure Post where
  id : String
  question : Question
  featured : Bool
  user : String
  createdAt : String
deriving DecidableEq, Repr

/-- The collection of posts, in storage order. -/
abbrev Store := List Post

/-- The identity `checkAuth` resolves a request to. -/
structure User where
  id : String
  username : String
deriving DecidableEq, Repr

/-- The errors a resolver can throw. -/
inductive Err where
  /-- `new AuthenticationError(message)` -/
  | authentication (message : String)
  /-- `new ApolloError(message, code)` -/
  | apollo (message : String) (code : String)
  /-- `new Error(message)` with a literal message -/
  | error (message : String)
  /-- An error raised by the document store itself -/
  | storage (message : String)
  /-- `new Error(err)`: a caught error wrapped into a plain `Error` -/
  | wrapped (cause : Err)
  /-- The `TypeError` of a property read on `null` -/
  | typeError (message : String)
deriving DecidableEq, Repr

/-- The request context: the identity the request carries, if any, and the message
the verifier fails with when it carries none. -/
structure Context where
  user : Option User
  failure : String
deriving DecidableEq, Repr

/-- Modelled from the spec: the identity verifier `utils/check-auth`, which returns
the authenticated identity or fails with an authentication error. -/
def checkAuth (context : Context) : Except Err User :=
  match context.user with
  | some user => .ok user
  | none => .error (.authentication context.failure)

/-- The functions of the MongoDB driver and of Mongoose that the resolvers call. -/
structure Driver where
  /-- `ObjectID.isValid(s)` -/
  isValid : String → Bool
  /-- `new ObjectID(s)`, as the identifier it denotes -/
  objectID : String → String
  /-- The cast `findById` applies to its argument; `none` is a `CastError` -/
  castId : String → Option String
  /-- The operator `{ $regex: pattern, $options: 'i' }` as a predicate on the field;
  `none` when the store rejects the pattern -/
  regex : String → Option (String → Bool)
  /-- The value the schema of `Models/Post` gives `featured` in a new document -/
  featuredDefault : Bool

/-! ## Vote mutations -/

/-- `Post.findById(postId)`: the stored post with that identifier, `null` when there
is none, and a thrown `CastError` when the argument is no identifier. -/
def findById (db : Driver) (store : Store) (postId : String) : Except Err (Option Post) :=
  match db.castId postId with
  | none => .error (.storage "CastError")
  | some oid => .ok (store.find? (fun p => p.id == oid))

/-- `post.save()`: the stored document with the identifier of `post` is replaced. -/
def save (store : Store) (post : Post) : Store :=
  store.map (fun p => if p.id == post.id then post else p)

/-- Lines 165-191 of `upvotePost`: the in-memory update of the loaded post. -/
def applyUpvote (post : Post) (username now : String) : Post :=
  let q := post.question
  let q :=
    if (q.upvotes.find? (fun upvote => upvote.username == username)).isSome then
      { q with upvotes := q.upvotes.filter (fun upvote => upvote.username != username) }
    else
      let q :=
        if (q.downvotes.find? (fun downvote => downvote.username == username)).isSome then
          { q with downvotes := q.downvotes.filter (fun downvote => downvote.username != username) }
        else q
      { q with upvotes := q.upvotes ++ [{ username := username, createdAt := now }] }
  { post with
    question := { q with voteCount := (q.upvotes.length : Int) - (q.downvotes.length : Int) } }

/-- Lines 206-235 of `downvotePost`: the in-memory update of the loaded post. -/
def applyDownvote (post : Post) (username now : String) : Post :=
  let q := post.question
  let q :=
    if (q.downvotes.find? (fun downvote => downvote.username == username)).isSome then
      { q with downvotes := q.downvotes.filter (fun downvote => downvote.username != username) }
    else
      let q :=
        if (q.upvotes.find? (fun upvote => upvote.username == username)).isSome then
          { q with upvotes := q.upvotes.filter (fun upvote => upvote.username != username) }
        else q
      { q with downvotes := q.downvotes ++ [{ username := username, createdAt := now }] }
  { post with
    question := { q with voteCount := (q.upvotes.length : Int) - (q.downvotes.length : Int) } }

/-- The resolver `upvotePost`; `now` is `new Date().toISOString()`.  It returns the
updated post and the store after `post.save()`. -/
def upvotePost (db : Driver) (store : Store) (postId : String) (context : Context)
    (now : String) : Except Err (Post × Store) :=
  match checkAuth context with
  | .error e => .error e
  | .ok user =>
    match findById db store postId with
    | .error e => .error e
    | .ok (some post) =>
      let post := applyUpvote post user.username now
      .ok (post, save store post)
    | .ok none => .error (.error "Post not found")

/-- The resolver `downvotePost`; `now` is `new Date().toISOString()`.  It returns the
updated post and the store after `post.save()`. -/
def downvotePost (db : Driver) (store : Store) (postId : String) (context : Context)
    (now : String) : Except Err (Post × Store) :=
  match checkAuth context with
  | .error e => .error e
  | .ok user =>
    match findById db store postId with
    | .error e => .error e
    | .ok (some post) =>
      let post := applyDownvote post user.username now
      .ok (post, save store post)
    | .ok none => .error (.error "Post not found")

/-- The two vote mutations. -/
inductive VoteKind where
  | up
  | down
deriving DecidableEq, Repr

/-- One request to a vote mutation. -/
structure VoteCall where
  kind : VoteKind
  postId : String
  context : Context
  now : String
deriving DecidableEq, Repr

/-- Dispatch of one vote request to its resolver. -/
def callVote (db : Driver) (store : Store) (c : VoteCall) : Except Err (Post × Store) :=
  match c.kind with
  | .up => upvotePost db store c.postId c.context c.now
  | .down => downvotePost db store c.postId c.context c.now

/-- The store after a sequence of vote requests served one after the other; a
request that fails writes nothing. -/
def runVotes (db : Driver) (store : Store) : List VoteCall → Store
  | [] => store
  | c :: cs =>
    match callVote db store c with
    | .ok (_, store') => runVotes db store' cs
    | .error _ => runVotes db store cs

/-- The in-memory update of the mutation of the given kind. -/
def applyVote (kind : VoteKind) (post : Post) (username now : String) : Post :=
  match kind with
  | .up => applyUpvote post username now
  | .down => applyDownvote post username now

/-! ## Queries -/

/-- The value both list queries return. -/
structure PaginatedResult where
  posts : List Post
  totalPages : Nat
  totalPosts : Nat
deriving DecidableEq, Repr

/-- `let perPage = 4`. -/
def perPage : Nat := 4

/-- Lines 12-13 (and 77-78): `page = Math.abs(page) || 1; page = Math.max(1, page)`.
An absent page makes `Math.abs` return `NaN`, which like `0` is falsy. -/
def normalizePage (page : Option Int) : Nat :=
  let page : Nat :=
    match page with
    | none => 1
    | some n => if n.natAbs = 0 then 1 else n.natAbs
  max 1 page

/-- `Math.ceil(totalPostCount / perPage)` on non-negative integers. -/
def mathCeilDiv (n d : Nat) : Nat :=
  if n % d = 0 then n / d else n / d + 1

/-- `Post.find(filter).limit(limit).skip(skip)`: the store applies the skip before
the limit whatever the order of the two calls. -/
def findPage (store : Store) (filter : Post → Bool) (limit skip : Nat) : List Post :=
  ((store.filter filter).drop skip).take limit

/-- `Post.find(filter).count()`. -/
def countMatching (store : Store) (filter : Post → Bool) : Nat :=
  (store.filter filter).length

/-- Lines 47-51, shared by the branches: the page and the two totals of one filter. -/
def paginate (store : Store) (filter : Post → Bool) (page : Nat) : PaginatedResult :=
  let posts := findPage store filter perPage (perPage * (page - 1))
  let totalPostCount := countMatching store filter
  { posts := posts
    totalPages := mathCeilDiv totalPostCount perPage
    totalPosts := totalPostCount }

/-- The filter `{ 'question.tags': { $elemMatch: { name: tag } }, featured: featured }`. -/
def tagFilter (tag : String) (featured : Bool) (p : Post) : Bool :=
  p.question.tags.any (fun t => t.name == tag) && p.featured == featured

/-- The filter `{ 'question.title': { $regex: search, $options: 'i' }, featured: featured }`
for a compiled pattern. -/
def searchFilter (test : String → Bool) (featured : Bool) (p : Post) : Bool :=
  test p.question.title && p.featured == featured

/-- The filter `{ featured: featured }`. -/
def featuredFilter (featured : Bool) (p : Post) : Bool :=
  p.featured == featured

/-- The filter `{ user: new ObjectID(userId) }`. -/
def userFilter (owner : String) (p : Post) : Bool :=
  p.user == owner

/-- The truth value of an optional string argument in `if (tag)`: absent and the
empty string are falsy. -/
def supplied (arg : Option String) : Option String :=
  arg.filter (fun s => s != "")

/-- The resolver `getPosts`. -/
def getPosts (db : Driver) (store : Store) (page : Option Int) (tag search : Option String)
    (featured : Bool) : Except Err PaginatedResult :=
  let page := normalizePage page
  match supplied tag with
  | some tag =>
    let page := 1
    .ok (paginate store (tagFilter tag featured) page)
  | none =>
    match supplied search with
    | some search =>
      let page := 1
      match db.regex search with
      | some test => .ok (paginate store (searchFilter test featured) page)
      | none => .error (.wrapped (.storage "Regular expression is invalid"))
    | none => .ok (paginate store (featuredFilter featured) page)

/-- The resolver `getUserPost`.  The list a query returns is never falsy, so the
`POST_NOT_FOUND` branch of line 96 is not taken. -/
def getUserPost (db : Driver) (store : Store) (userId : String) (page : Option Int) :
    Except Err PaginatedResult :=
  let page := normalizePage page
  if db.isValid userId then
    .ok (paginate store (userFilter (db.objectID userId)) page)
  else
    .error (.apollo "User doesn't exist check authentication" "USER_NOT_FOUND")

/-! ## The other resolvers -/

/-- The resolver `getPost`.  The error thrown in the `try` block for a missing post
and every error of the lookup are caught and replaced by the same `ApolloError`. -/
def getPost (db : Driver) (store : Store) (postId : String) : Except Err Post :=
  match findById db store postId with
  | .ok (some post) => .ok post
  | .ok none => .error (.apollo "Post not found please check again" "POST_NOT_FOUND")
  | .error _ => .error (.apollo "Post not found please check again" "POST_NOT_FOUND")

/-- The code points `String.prototype.trim` removes: the white space and the line
terminators of ECMAScript. -/
def jsWhiteSpace (c : Char) : Bool :=
  let n := c.toNat
  n == 0x09 || n == 0x0A || n == 0x0B || n == 0x0C || n == 0x0D || n == 0x20 ||
    n == 0xA0 || n == 0x1680 || (0x2000 ≤ n && n ≤ 0x200A) || n == 0x2028 ||
    n == 0x2029 || n == 0x202F || n == 0x205F || n == 0x3000 || n == 0xFEFF

/-- `s.trim()`. -/
def jsTrim (s : String) : String :=
  String.mk ((s.toList.dropWhile jsWhiteSpace).reverse.dropWhile jsWhiteSpace).reverse

/-- The resolver `createPost`; `tags` is `none` for `null`, `now` is
`new Date().toISOString()` and `newId` the identifier the store assigns.  It returns
the outcome together with the store the call leaves behind.
Modelled from the spec: the defaults of the schema `Models/Post` for the fields the
resolver does not set (vote count 0, empty vote lists). -/
def createPost (db : Driver) (store : Store) (title body : String) (tags : Option (List Tag))
    (context : Context) (now newId : String) : Except Err Post × Store :=
  match checkAuth context with
  | .error e => (.error e, store)
  | .ok user =>
    if jsTrim title == "" then
      (.error (.error "Post title must not be empty"), store)
    else if jsTrim body == "" then
      (.error (.error "Post body must not be empty"), store)
    else
      match tags with
      | none => (.error (.error "Post Tags must not be empty"), store)
      | some tags =>
        if tags.length == 0 then
          (.error (.error "Post Tags must not be empty"), store)
        else
          let newPost : Post :=
            { id := newId
              question :=
                { title := title, body := body, tags := tags, username := user.username,
                  upvotes := [], downvotes := [], voteCount := 0 }
              featured := db.featuredDefault
              user := user.id
              createdAt := now }
          (.ok newPost, store ++ [newPost])

/-- `post.delete()`: the stored document with the identifier of `post` is removed. -/
def delete (store : Store) (post : Post) : Store :=
  store.filter (fun p => p.id != post.id)

/-- The resolver `deletePost`, with the store the call leaves behind.  `checkAuth` runs
before the `try` block; every error raised inside it, the `AuthenticationError` of
line 153 included, is caught and rethrown as `new Error(err)`.  A missing post makes
`post.question` a `TypeError`. -/
def deletePost (db : Driver) (store : Store) (postId : String) (context : Context) :
    Except Err String × Store :=
  match checkAuth context with
  | .error e => (.error e, store)
  | .ok user =>
    match findById db store postId with
    | .error e => (.error (.wrapped e), store)
    | .ok none =>
      (.error (.wrapped (.typeError "Cannot read property 'question' of null")), store)
    | .ok (some post) =>
      if user.username == post.question.username then
        (.ok "Post deleted successfully", delete store post)
      else
        (.error (.wrapped (.authentication "Action not allowed")), store)

/-- The class of a thrown error, which is what tells error kinds apart for a caller. -/
inductive ErrKind where
  /-- `AuthenticationError` -/
  | authentication
  /-- `ApolloError` with its code -/
  | apollo (code : String)
  /-- A plain `Error` -/
  | plain
  /-- An error class of the document store -/
  | storage
  /-- `TypeError` -/
  | typeError
deriving DecidableEq, Repr

/-- The class of each error; `new Error(err)` is a plain `Error` whatever it wraps. -/
def Err.kind : Err → ErrKind
  | .authentication _ => .authentication
  | .apollo _ code => .apollo code
  | .error _ => .plain
  | .storage _ => .storage
  | .wrapped _ => .plain
  | .typeError _ => .typeError

/-- The mirror map on posts: the two vote lists exchanged and the count negated. -/
def swapVotes (post : Post) : Post :=
  { post with
    question :=
      { post.question with
        upvotes := post.question.downvotes
        downvotes := post.question.upvotes
        voteCount := -post.question.voteCount } }

/-- The reconciliation of the spec (section 4.2, steps 3 and 4) on "this side" and
"the other side": a caller present in this side is removed from it; otherwise the
caller is removed from the other side and a new record is appended to this side.
It returns the new this side and the new other side. -/
def reconcile (this other : List Vote) (username now : String) : List Vote × List Vote :=
  if username ∈ this.map (fun v => v.username) then
    (this.filter (fun v => v.username != username), other)
  else
    (this ++ [{ username := username, createdAt := now }],
      other.filter (fun v => v.username != username))

/-- The posts of an outcome of a list query, none for a failure. -/
def postsOf : Except Err PaginatedResult → List Post
  | .ok r => r.posts
  | .error _ => []

/-- Every username has at most one record in each vote list. -/
def VotersUnique (post : Post) : Prop :=
  (post.question.upvotes.map (fun v => v.username)).Nodup ∧
    (post.question.downvotes.map (fun v => v.username)).Nodup

/-- What a vote by `u` that turns the stored post `old` of `store` into `post` and the
store into `store'` leaves alone: the records of every other username in both vote
lists, in their order; the other fields of the post; and the posts stored under
other identifiers, each at its position. -/
def VoteFrame (store : Store) (old : Post) (u : String) (post : Post) (store' : Store) :
    Prop :=
  post.question.upvotes.filter (fun v => v.username != u)
      = old.question.upvotes.filter (fun v => v.username != u) ∧
    post.question.downvotes.filter (fun v => v.username != u)
      = old.question.downvotes.filter (fun v => v.username != u) ∧
    post.question.title = old.question.title ∧ post.question.body = old.question.body ∧
    post.question.tags = old.question.tags ∧
    post.question.username = old.question.username ∧ post.user = old.user ∧
    post.featured = old.featured ∧ post.createdAt = old.createdAt ∧ post.id = old.id ∧
    store'.length = store.length ∧
    ∀ (i : Nat) (p : Post), store[i]? = some p → p.id ≠ old.id → store'[i]? = some p

/-- The usernames of a vote list, in order. -/
def voters (votes : List Vote) : List String :=
  votes.map (fun v => v.username)

/-- The stated value of the cached count. -/
def CountOk (post : Post) : Prop :=
  post.question.voteCount
    = (post.question.upvotes.length : Int) - (post.question.downvotes.length : Int)

/-- No username has a record in both vote lists. -/
def Exclusive (post : Post) : Prop :=
  ∀ u, ¬ (u ∈ voters post.question.upvotes ∧ u ∈ voters post.question.downvotes)

/-- The posts of a result are page `k` of the stored posts that the filter selects. -/
def PageOf (store : Store) (f : Post → Bool) (k : Nat) (r : PaginatedResult) : Prop :=
  r.posts = ((store.filter f).drop (4 * (k - 1))).take 4

/-- The totals of a result are those of the filter on the store: the number of stored
posts it selects, and the ceiling of a quarter of that number. -/
def TotalsOf (store : Store) (f : Post → Bool) (r : PaginatedResult) : Prop :=
  r.totalPosts = (store.filter f).length ∧
    r.totalPages = ⌈(r.totalPosts : ℚ) / 4⌉₊ ∧ (r.totalPages = 0 ↔ r.totalPosts = 0)

/-! ## Driver and data used in the concrete instances -/

/-- A driver that accepts every identifier and matches a pattern by equality. -/
def demoDriver : Driver where
  isValid := fun _ => true
  objectID := fun s => s
  castId := fun s => some s
  regex := fun pattern => some (fun title => title == pattern)
  featuredDefault := false

/-- A post with the given identifier, flag, tag names and vote lists. -/
def mkPost (id : String) (featured : Bool) (tags : List String) (upvotes downvotes : List Vote)
    (voteCount : Int) : Post where
  id := id
  question :=
    { title := "t", body := "b", tags := tags.map Tag.mk, username := "owner",
      upvotes := upvotes, downvotes := downvotes, voteCount := voteCount }
  featured := featured
  user := "u1"
  createdAt := "c"

/-- Five featured posts, the first, third and fifth tagged `rust`, then one post that
is not featured. -/
def demoStore : Store :=
  [mkPost "p1" true ["rust"] [] [] 0, mkPost "p2" true ["go"] [] [] 0,
    mkPost "p3" true ["rust", "go"] [] [] 0, mkPost "p4" true [] [] [] 0,
    mkPost "p5" true ["rust"] [] [] 0, mkPost "p6" false ["rust"] [] [] 0]

/-- A request context authenticated as the given username. -/
def asUser (username : String) : Context where
  user := some { id := username, username := username }
  failure := "unauthenticated"

/-! ## Lemmas on the vote mutations -/

theorem isSome_find_iff (votes : List Vote) (u : String) :
    (votes.find? (fun v => v.username == u)).isSome = true ↔ u ∈ voters votes := by
  simp only [List.find?_isSome, voters, List.mem_map, beq_iff_eq]

theorem mem_voters_filter (votes : List Vote) (u w : String) :
    w ∈ voters (votes.filter (fun v => v.username != u)) ↔ w ∈ voters votes ∧ w ≠ u := by
  simp only [voters, List.mem_map, List.mem_filter, bne_iff_ne, ne_eq]
  constructor
  · rintro ⟨v, ⟨hv, hne⟩, rfl⟩
    exact ⟨⟨v, hv, rfl⟩, hne⟩
  · rintro ⟨⟨v, hv, rfl⟩, hne⟩
    exact ⟨v, ⟨hv, hne⟩, rfl⟩

theorem filter_eq_self_of_not_mem (votes : List Vote) (u : String) (h : u ∉ voters votes) :
    votes.filter (fun v => v.username != u) = votes := by
  rw [List.filter_eq_self]
  intro v hv
  simp only [bne_iff_ne, ne_eq]
  intro he
  exact h (List.mem_map.mpr ⟨v, hv, he⟩)

theorem voters_append (a b : List Vote) : voters (a ++ b) = voters a ++ voters b := by
  simp [voters]

theorem applyVote_id (kind : VoteKind) (post : Post) (u now : String) :
    (applyVote kind post u now).id = post.id := by
  cases kind <;> rfl

theorem applyVote_countOk (kind : VoteKind) (post : Post) (u now : String) :
    CountOk (applyVote kind post u now) := by
  cases kind <;> rfl

theorem callVote_ok (db : Driver) (store : Store) (c : VoteCall) (post : Post) (store' : Store)
    (h : callVote db store c = .ok (post, store')) :
    ∃ user old, checkAuth c.context = .ok user ∧ findById db store c.postId = .ok (some old) ∧
      post = applyVote c.kind old user.username c.now ∧ store' = save store post := by
  unfold callVote at h
  cases hk : c.kind <;> rw [hk] at h <;> simp only [upvotePost, downvotePost] at h <;>
    (cases ha : checkAuth c.context with
     | error e => rw [ha] at h; simp at h
     | ok user =>
       rw [ha] at h
       cases hf : findById db store c.postId with
       | error e => rw [hf] at h; simp at h
       | ok o =>
         rw [hf] at h
         cases o with
         | none => simp at h
         | some old =>
           simp only [Except.ok.injEq, Prod.mk.injEq] at h
           refine ⟨user, old, rfl, rfl, ?_, ?_⟩
           · exact h.1.symm
           · rw [← h.2, ← h.1])

theorem findById_some (db : Driver) (store : Store) (postId : String) (old : Post)
    (h : findById db store postId = .ok (some old)) :
    old ∈ store ∧ db.castId postId = some old.id := by
  unfold findById at h
  cases hc : db.castId postId with
  | none => rw [hc] at h; simp at h
  | some oid =>
    rw [hc] at h
    simp only [Except.ok.injEq] at h
    have h1 := List.mem_of_find?_eq_some h
    have h2 := List.find?_some h
    simp only [beq_iff_eq] at h2
    exact ⟨h1, by rw [h2]⟩

theorem mem_save (store : Store) (post p : Post) (h : p ∈ save store post) :
    p = post ∨ (p ∈ store ∧ p.id ≠ post.id) := by
  simp only [save, List.mem_map] at h
  obtain ⟨a, ha, rfl⟩ := h
  by_cases hid : a.id = post.id
  · left; simp [hid]
  · right
    have : (a.id == post.id) = false := by simpa using hid
    simp only [this]
    exact ⟨ha, hid⟩

theorem find_save (store : Store) (post old : Post) (oid : String) (hid : post.id = oid)
    (h : store.find? (fun p => p.id == oid) = some old) :
    (save store post).find? (fun p => p.id == oid) = some post := by
  induction store with
  | nil => simp at h
  | cons a t ih =>
    by_cases ha : a.id = oid
    · simp [save, ha, hid]
    · have hne : (a.id == oid) = false := by simpa using ha
      rw [List.find?_cons, hne] at h
      have ih' := ih h
      simp only [save] at ih' ⊢
      simp only [List.map_cons, hid, hne, List.find?_cons] at ih' ⊢
      simpa [hne] using ih'

theorem isSome_find_true (votes : List Vote) (u : String) (h : u ∈ voters votes) :
    (votes.find? (fun v => v.username == u)).isSome = true :=
  (isSome_find_iff votes u).mpr h

theorem isSome_find_false (votes : List Vote) (u : String) (h : u ∉ voters votes) :
    (votes.find? (fun v => v.username == u)).isSome = false := by
  cases hb : (votes.find? (fun v => v.username == u)).isSome with
  | false => rfl
  | true => exact absurd ((isSome_find_iff votes u).mp hb) h

theorem applyUpvote_upvotes (post : Post) (u now : String) :
    (applyUpvote post u now).question.upvotes =
      if u ∈ voters post.question.upvotes then
        post.question.upvotes.filter (fun v => v.username != u)
      else post.question.upvotes ++ [{ username := u, createdAt := now }] := by
  unfold applyUpvote
  by_cases h : u ∈ voters post.question.upvotes
  · simp [h, isSome_find_true _ _ h]
  · by_cases hd : u ∈ voters post.question.downvotes
    · simp [h, isSome_find_false _ _ h, isSome_find_true _ _ hd]
    · simp [h, isSome_find_false _ _ h, isSome_find_false _ _ hd]

theorem applyUpvote_downvotes (post : Post) (u now : String) :
    (applyUpvote post u now).question.downvotes =
      if u ∈ voters post.question.upvotes then post.question.downvotes
      else post.question.downvotes.filter (fun v => v.username != u) := by
  unfold applyUpvote
  by_cases h : u ∈ voters post.question.upvotes
  · simp [h, isSome_find_true _ _ h]
  · by_cases hd : u ∈ voters post.question.downvotes
    · simp [h, isSome_find_false _ _ h, isSome_find_true _ _ hd]
    · simp only [h, isSome_find_false _ _ h, isSome_find_false _ _ hd, if_false,
        Bool.false_eq_true]
      exact (filter_eq_self_of_not_mem _ _ hd).symm

theorem applyDownvote_downvotes (post : Post) (u now : String) :
    (applyDownvote post u now).question.downvotes =
      if u ∈ voters post.question.downvotes then
        post.question.downvotes.filter (fun v => v.username != u)
      else post.question.downvotes ++ [{ username := u, createdAt := now }] := by
  unfold applyDownvote
  by_cases h : u ∈ voters post.question.downvotes
  · simp [h, isSome_find_true _ _ h]
  · by_cases hd : u ∈ voters post.question.upvotes
    · simp [h, isSome_find_false _ _ h, isSome_find_true _ _ hd]
    · simp [h, isSome_find_false _ _ h, isSome_find_false _ _ hd]

theorem applyDownvote_upvotes (post : Post) (u now : String) :
    (applyDownvote post u now).question.upvotes =
      if u ∈ voters post.question.downvotes then post.question.upvotes
      else post.question.upvotes.filter (fun v => v.username != u) := by
  unfold applyDownvote
  by_cases h : u ∈ voters post.question.downvotes
  · simp [h, isSome_find_true _ _ h]
  · by_cases hd : u ∈ voters post.question.upvotes
    · simp [h, isSome_find_false _ _ h, isSome_find_true _ _ hd]
    · simp only [h, isSome_find_false _ _ h, isSome_find_false _ _ hd, if_false,
        Bool.false_eq_true]
      exact (filter_eq_self_of_not_mem _ _ hd).symm

theorem applyUpvote_voteCount (post : Post) (u now : String) :
    (applyUpvote post u now).question.voteCount =
      ((applyUpvote post u now).question.upvotes.length : Int)
        - ((applyUpvote post u now).question.downvotes.length : Int) := rfl

theorem applyDownvote_voteCount (post : Post) (u now : String) :
    (applyDownvote post u now).question.voteCount =
      ((applyDownvote post u now).question.upvotes.length : Int)
        - ((applyDownvote post u now).question.downvotes.length : Int) := rfl

theorem mem_voters_single (u w now : String) :
    w ∈ voters [({ username := u, createdAt := now } : Vote)] ↔ w = u := by
  simp [voters]

theorem applyVote_exclusive (kind : VoteKind) (post : Post) (u now : String)
    (h : Exclusive post) : Exclusive (applyVote kind post u now) := by
  intro w
  have hw := h w
  cases kind
  · simp only [applyVote, applyUpvote_upvotes, applyUpvote_downvotes]
    by_cases hu : u ∈ voters post.question.upvotes
    · simp only [hu, if_true, mem_voters_filter]
      tauto
    · simp only [hu, if_false, mem_voters_filter, voters_append, List.mem_append,
        mem_voters_single]
      tauto
  · simp only [applyVote, applyDownvote_upvotes, applyDownvote_downvotes]
    by_cases hu : u ∈ voters post.question.downvotes
    · simp only [hu, if_true, mem_voters_filter]
      tauto
    · simp only [hu, if_false, mem_voters_filter, voters_append, List.mem_append,
        mem_voters_single]
      tauto

theorem runVotes_invariant (db : Driver) (P : Post → Prop)
    (hstep : ∀ kind post u now, P post → P (applyVote kind post u now))
    (calls : List VoteCall) :
    ∀ (store : Store) (i : String), (∀ p ∈ store, p.id = i → P p) →
      ∀ p ∈ runVotes db store calls, p.id = i → P p := by
  induction calls with
  | nil => intro store i h p hp hi; exact h p hp hi
  | cons c cs ih =>
    intro store i h
    unfold runVotes
    cases hc : callVote db store c with
    | error e => exact ih store i h
    | ok r =>
      obtain ⟨post, store'⟩ := r
      obtain ⟨user, old, _, hf, hpost, hstore⟩ := callVote_ok db store c post store' hc
      apply ih store' i
      intro p hp hi
      rw [hstore] at hp
      rcases mem_save store post p hp with h1 | ⟨h1, _⟩
      · rw [h1, hpost]
        apply hstep
        apply h old (findById_some db store c.postId old hf).1
        rw [← hi, h1, hpost, applyVote_id]
      · exact h p h1 hi

theorem upvotePost_eq (db : Driver) (store : Store) (postId : String) (context : Context)
    (now : String) (user : User) (old : Post) (hauth : checkAuth context = .ok user)
    (hfind : findById db store postId = .ok (some old)) :
    upvotePost db store postId context now =
      .ok (applyUpvote old user.username now, save store (applyUpvote old user.username now)) := by
  simp [upvotePost, hauth, hfind]

theorem downvotePost_eq (db : Driver) (store : Store) (postId : String) (context : Context)
    (now : String) (user : User) (old : Post) (hauth : checkAuth context = .ok user)
    (hfind : findById db store postId = .ok (some old)) :
    downvotePost db store postId context now =
      .ok (applyDownvote old user.username now,
        save store (applyDownvote old user.username now)) := by
  simp [downvotePost, hauth, hfind]

theorem findById_save (db : Driver) (store : Store) (postId : String) (old post : Post)
    (hfind : findById db store postId = .ok (some old)) (hid : post.id = old.id) :
    findById db (save store post) postId = .ok (some post) := by
  have hcast := (findById_some db store postId old hfind).2
  unfold findById at hfind ⊢
  rw [hcast] at hfind ⊢
  simp only [Except.ok.injEq] at hfind ⊢
  exact find_save store post old old.id hid hfind

theorem filter_eq_nil_of_not_mem (votes : List Vote) (u : String) (h : u ∉ voters votes) :
    votes.filter (fun v => v.username == u) = [] := by
  rw [List.filter_eq_nil_iff]
  intro v hv
  simp only [beq_iff_eq]
  intro he
  exact h (List.mem_map.mpr ⟨v, hv, he⟩)

theorem not_mem_voters_filter (votes : List Vote) (u : String) :
    u ∉ voters (votes.filter (fun v => v.username != u)) := by
  rw [mem_voters_filter]
  exact fun hh => hh.2 rfl

theorem count_voters (votes : List Vote) (u : String) :
    (voters votes).count u = (votes.filter (fun v => v.username == u)).length := by
  induction votes with
  | nil => rfl
  | cons v t ih =>
    simp only [voters, List.map_cons, List.count_cons, List.filter_cons] at ih ⊢
    by_cases h : v.username = u
    · simp [h, ih]
    · have hb : (v.username == u) = false := by simpa using h
      simp [hb, ih]

theorem not_mem_downvotes_after_upvote (post : Post) (u now : String)
    (h : ¬ (u ∈ voters post.question.upvotes ∧ u ∈ voters post.question.downvotes)) :
    u ∉ voters (applyUpvote post u now).question.downvotes := by
  rw [applyUpvote_downvotes]
  by_cases hu : u ∈ voters post.question.upvotes
  · simp only [hu, if_true]
    exact fun hd => h ⟨hu, hd⟩
  · simp only [hu, if_false]
    exact not_mem_voters_filter _ _

theorem displacement_post (post : Post) (u t1 t2 : String)
    (h : ¬ (u ∈ voters post.question.upvotes ∧ u ∈ voters post.question.downvotes)) :
    (applyDownvote (applyUpvote post u t1) u t2).question.downvotes.filter
        (fun v => v.username == u) = [{ username := u, createdAt := t2 }] ∧
      u ∉ voters (applyDownvote (applyUpvote post u t1) u t2).question.upvotes := by
  have hd := not_mem_downvotes_after_upvote post u t1 h
  rw [applyDownvote_downvotes, applyDownvote_upvotes]
  simp only [hd, if_false]
  refine ⟨?_, not_mem_voters_filter _ _⟩
  rw [List.filter_append, filter_eq_nil_of_not_mem _ _ hd]
  simp

theorem toggle_upvote_post (post : Post) (u t1 t2 : String)
    (h : u ∉ voters post.question.upvotes) :
    (applyUpvote (applyUpvote post u t1) u t2).question.upvotes = post.question.upvotes ∧
      u ∉ voters (applyUpvote (applyUpvote post u t1) u t2).question.downvotes := by
  have h1 : (applyUpvote post u t1).question.upvotes
      = post.question.upvotes ++ [{ username := u, createdAt := t1 }] := by
    rw [applyUpvote_upvotes]; simp only [h, if_false]
  have h2 : (applyUpvote post u t1).question.downvotes
      = post.question.downvotes.filter (fun v => v.username != u) := by
    rw [applyUpvote_downvotes]; simp only [h, if_false]
  have hu : u ∈ voters (applyUpvote post u t1).question.upvotes := by
    rw [h1, voters_append, List.mem_append, mem_voters_single]; exact Or.inr rfl
  rw [applyUpvote_upvotes, applyUpvote_downvotes]
  simp only [hu, if_true]
  refine ⟨?_, ?_⟩
  · rw [h1, List.filter_append, filter_eq_self_of_not_mem _ _ h]
    simp
  · rw [h2]; exact not_mem_voters_filter _ _

theorem toggle_downvote_post (post : Post) (u t1 t2 : String)
    (h : u ∉ voters post.question.downvotes) :
    (applyDownvote (applyDownvote post u t1) u t2).question.downvotes
        = post.question.downvotes ∧
      u ∉ voters (applyDownvote (applyDownvote post u t1) u t2).question.upvotes := by
  have h1 : (applyDownvote post u t1).question.downvotes
      = post.question.downvotes ++ [{ username := u, createdAt := t1 }] := by
    rw [applyDownvote_downvotes]; simp only [h, if_false]
  have h2 : (applyDownvote post u t1).question.upvotes
      = post.question.upvotes.filter (fun v => v.username != u) := by
    rw [applyDownvote_upvotes]; simp only [h, if_false]
  have hu : u ∈ voters (applyDownvote post u t1).question.downvotes := by
    rw [h1, voters_append, List.mem_append, mem_voters_single]; exact Or.inr rfl
  rw [applyDownvote_downvotes, applyDownvote_upvotes]
  simp only [hu, if_true]
  refine ⟨?_, ?_⟩
  · rw [h1, List.filter_append, filter_eq_self_of_not_mem _ _ h]
    simp
  · rw [h2]; exact not_mem_voters_filter _ _

/-! ## Claims on the vote mutations -/

/-- C1: the post returned by a successful `upvotePost` or `downvotePost` has
`voteCount` equal to the length of its upvotes minus the length of its downvotes,
whatever count the stored post held, and it is the post the store then holds under
that identifier; hence the equation holds for every post of a store in which it
held before, after any sequence of vote requests. -/
theorem voteCount_after_vote (db : Driver) (store : Store) (postId : String)
    (context : Context) (now : String) (calls : List VoteCall) :
    (∀ post store', upvotePost db store postId context now = .ok (post, store') →
        post.question.voteCount
          = (post.question.upvotes.length : Int) - (post.question.downvotes.length : Int) ∧
        findById db store' postId = .ok (some post)) ∧
    (∀ post store', downvotePost db store postId context now = .ok (post, store') →
        post.question.voteCount
          = (post.question.upvotes.length : Int) - (post.question.downvotes.length : Int) ∧
        findById db store' postId = .ok (some post)) ∧
    ((∀ p ∈ store, CountOk p) → ∀ p ∈ runVotes db store calls, CountOk p) := by
  have key : ∀ kind post store',
      callVote db store ⟨kind, postId, context, now⟩ = .ok (post, store') →
        post.question.voteCount
          = (post.question.upvotes.length : Int) - (post.question.downvotes.length : Int) ∧
        findById db store' postId = .ok (some post) := by
    intro kind post store' h
    obtain ⟨user, old, _, hf, hpost, hstore⟩ := callVote_ok db store _ post store' h
    refine ⟨?_, ?_⟩
    · rw [hpost]; exact applyVote_countOk _ _ _ _
    · rw [hstore]
      exact findById_save db store postId old post hf (by rw [hpost, applyVote_id])
  refine ⟨fun post store' h => key .up post store' h,
    fun post store' h => key .down post store' h, ?_⟩
  intro h p hp
  exact runVotes_invariant db CountOk (fun kind post u t _ => applyVote_countOk kind post u t)
    calls store p.id (fun q hq _ => h q hq) p hp rfl

/-- C1 at a stored post with a stale count of 7: one upvote by `A` returns and stores
the post with count 1. -/
theorem voteCount_after_vote_witness :
    upvotePost demoDriver [mkPost "p1" true [] [] [] 7] "p1" (asUser "A") "t1"
        = .ok (mkPost "p1" true [] [⟨"A", "t1"⟩] [] 1, [mkPost "p1" true [] [⟨"A", "t1"⟩] [] 1]) ∧
      (mkPost "p1" true [] [⟨"A", "t1"⟩] [] 1).question.voteCount = (1 : Int) - (0 : Int) ∧
      findById demoDriver [mkPost "p1" true [] [⟨"A", "t1"⟩] [] 1] "p1"
        = .ok (some (mkPost "p1" true [] [⟨"A", "t1"⟩] [] 1)) :=
  ⟨rfl,
    (voteCount_after_vote demoDriver [mkPost "p1" true [] [] [] 7] "p1" (asUser "A") "t1" []).1
      (mkPost "p1" true [] [⟨"A", "t1"⟩] [] 1) [mkPost "p1" true [] [⟨"A", "t1"⟩] [] 1]
      rfl⟩

/-- C2: mutual exclusion is an invariant of the vote mutations: if no username has a
record in both vote lists of the posts stored under an identifier, the same holds
after any sequence of `upvotePost` and `downvotePost` requests by any callers. -/
theorem exclusive_after_votes (db : Driver) (store : Store) (calls : List VoteCall)
    (i : String) (h : ∀ p ∈ store, p.id = i → Exclusive p) :
    ∀ p ∈ runVotes db store calls, p.id = i → Exclusive p :=
  runVotes_invariant db Exclusive applyVote_exclusive calls store i h

/-- C2 on a post with empty vote lists, after an upvote and a downvote by `A` and an
upvote by `B`. -/
theorem exclusive_after_votes_witness :
    (∀ p ∈ [mkPost "p1" true [] [] [] 0], p.id = "p1" → Exclusive p) ∧
      ∀ p ∈ runVotes demoDriver [mkPost "p1" true [] [] [] 0]
          [⟨.up, "p1", asUser "A", "t1"⟩, ⟨.down, "p1", asUser "A", "t2"⟩,
            ⟨.up, "p1", asUser "B", "t3"⟩],
        p.id = "p1" → Exclusive p :=
  have h0 : ∀ p ∈ [mkPost "p1" true [] [] [] 0], p.id = "p1" → Exclusive p := by
    intro p hp _ u
    rw [List.mem_singleton] at hp
    subst hp
    simp [voters, mkPost]
  ⟨h0, exclusive_after_votes demoDriver _ _ "p1" h0⟩

/-- C3: displacement.  For a stored post and an authenticated caller `u` that is not in
both vote lists, `upvotePost` by `u` followed by `downvotePost` by `u` both succeed, and
in the resulting post the downvotes hold exactly one record of `u` (the new one) and
the upvotes hold none. -/
theorem displacement (db : Driver) (store : Store) (postId : String) (context : Context)
    (t1 t2 : String) (user : User) (old : Post)
    (hauth : checkAuth context = .ok user)
    (hfind : findById db store postId = .ok (some old))
    (hex : ¬ (user.username ∈ voters old.question.upvotes ∧
      user.username ∈ voters old.question.downvotes)) :
    ∃ p1 s1 p2 s2,
      upvotePost db store postId context t1 = .ok (p1, s1) ∧
      downvotePost db s1 postId context t2 = .ok (p2, s2) ∧
      p2.question.downvotes.filter (fun v => v.username == user.username)
        = [{ username := user.username, createdAt := t2 }] ∧
      (voters p2.question.downvotes).count user.username = 1 ∧
      user.username ∉ voters p2.question.upvotes := by
  have hf1 := findById_save db store postId old (applyUpvote old user.username t1) hfind rfl
  have hp := displacement_post old user.username t1 t2 hex
  refine ⟨_, _, _, _, upvotePost_eq db store postId context t1 user old hauth hfind,
    downvotePost_eq db _ postId context t2 user _ hauth hf1, hp.1, ?_, hp.2⟩
  rw [count_voters, hp.1]
  rfl

/-- C3 on a post that `A` had upvoted. -/
theorem displacement_witness :
    ∃ p1 s1 p2 s2,
      upvotePost demoDriver [mkPost "p1" true [] [⟨"A", "t0"⟩] [] 1] "p1" (asUser "A") "t1"
        = .ok (p1, s1) ∧
      downvotePost demoDriver s1 "p1" (asUser "A") "t2" = .ok (p2, s2) ∧
      p2.question.downvotes.filter (fun v => v.username == "A")
        = [{ username := "A", createdAt := "t2" }] ∧
      (voters p2.question.downvotes).count "A" = 1 ∧
      "A" ∉ voters p2.question.upvotes :=
  displacement demoDriver [mkPost "p1" true [] [⟨"A", "t0"⟩] [] 1] "p1" (asUser "A") "t1" "t2"
    ⟨"A", "A"⟩ (mkPost "p1" true [] [⟨"A", "t0"⟩] [] 1) rfl rfl
    (by simp [voters, mkPost])

/-- C4: toggle-off.  For a stored post and an authenticated caller `u` with no record in
the upvotes, two consecutive `upvotePost` calls by `u` succeed and leave the upvotes
list equal to the one before the first call, with `u` in neither vote list;
symmetrically for two `downvotePost` calls and the downvotes list. -/
theorem toggle_off (db : Driver) (store : Store) (postId : String) (context : Context)
    (t1 t2 : String) (user : User) (old : Post)
    (hauth : checkAuth context = .ok user)
    (hfind : findById db store postId = .ok (some old)) :
    (user.username ∉ voters old.question.upvotes →
      ∃ p1 s1 p2 s2,
        upvotePost db store postId context t1 = .ok (p1, s1) ∧
        upvotePost db s1 postId context t2 = .ok (p2, s2) ∧
        p2.question.upvotes = old.question.upvotes ∧
        user.username ∉ voters p2.question.upvotes ∧
        user.username ∉ voters p2.question.downvotes) ∧
    (user.username ∉ voters old.question.downvotes →
      ∃ p1 s1 p2 s2,
        downvotePost db store postId context t1 = .ok (p1, s1) ∧
        downvotePost db s1 postId context t2 = .ok (p2, s2) ∧
        p2.question.downvotes = old.question.downvotes ∧
        user.username ∉ voters p2.question.downvotes ∧
        user.username ∉ voters p2.question.upvotes) := by
  constructor
  · intro h
    have hf1 := findById_save db store postId old (applyUpvote old user.username t1) hfind rfl
    have hp := toggle_upvote_post old user.username t1 t2 h
    refine ⟨_, _, _, _, upvotePost_eq db store postId context t1 user old hauth hfind,
      upvotePost_eq db _ postId context t2 user _ hauth hf1, hp.1, ?_, hp.2⟩
    rw [hp.1]; exact h
  · intro h
    have hf1 := findById_save db store postId old (applyDownvote old user.username t1) hfind rfl
    have hp := toggle_downvote_post old user.username t1 t2 h
    refine ⟨_, _, _, _, downvotePost_eq db store postId context t1 user old hauth hfind,
      downvotePost_eq db _ postId context t2 user _ hauth hf1, hp.1, ?_, hp.2⟩
    rw [hp.1]; exact h

/-- C4 on a post upvoted by `B` and downvoted by `A`: two upvotes by `A` leave the
upvotes as they were. -/
theorem toggle_off_witness :
    ∃ p1 s1 p2 s2,
      upvotePost demoDriver [mkPost "p1" true [] [⟨"B", "t0"⟩] [⟨"A", "t0"⟩] 0] "p1"
        (asUser "A") "t1" = .ok (p1, s1) ∧
      upvotePost demoDriver s1 "p1" (asUser "A") "t2" = .ok (p2, s2) ∧
      p2.question.upvotes = [⟨"B", "t0"⟩] ∧
      "A" ∉ voters p2.question.upvotes ∧
      "A" ∉ voters p2.question.downvotes :=
  (toggle_off demoDriver [mkPost "p1" true [] [⟨"B", "t0"⟩] [⟨"A", "t0"⟩] 0] "p1"
    (asUser "A") "t1" "t2" ⟨"A", "A"⟩ (mkPost "p1" true [] [⟨"B", "t0"⟩] [⟨"A", "t0"⟩] 0)
    rfl rfl).1 (by simp [voters, mkPost])

/-- C5: the vote scenario, step by step.  On a stored post with empty vote lists, for
authenticated callers `A` and `B` with different usernames, every call succeeds and:
`A` upvotes, giving upvotes `[A]`, no downvotes and count 1; `A` upvotes again, giving
no upvotes and count 0; `A` downvotes, giving downvotes `[A]`, no upvotes and count -1;
`B` upvotes, giving upvotes `[B]`, downvotes `[A]` and count 0. -/
theorem vote_scenario (db : Driver) (store : Store) (postId : String)
    (ctxA ctxB : Context) (userA userB : User) (old : Post) (t1 t2 t3 t4 : String)
    (hA : checkAuth ctxA = .ok userA) (hB : checkAuth ctxB = .ok userB)
    (hne : userB.username ≠ userA.username)
    (hfind : findById db store postId = .ok (some old))
    (hup : old.question.upvotes = []) (hdown : old.question.downvotes = []) :
    ∃ p1 s1 p2 s2 p3 s3 p4 s4,
      upvotePost db store postId ctxA t1 = .ok (p1, s1) ∧
      p1.question.upvotes = [{ username := userA.username, createdAt := t1 }] ∧
      p1.question.downvotes = [] ∧ p1.question.voteCount = 1 ∧
      upvotePost db s1 postId ctxA t2 = .ok (p2, s2) ∧
      p2.question.upvotes = [] ∧ p2.question.downvotes = [] ∧ p2.question.voteCount = 0 ∧
      downvotePost db s2 postId ctxA t3 = .ok (p3, s3) ∧
      p3.question.downvotes = [{ username := userA.username, createdAt := t3 }] ∧
      p3.question.upvotes = [] ∧ p3.question.voteCount = -1 ∧
      upvotePost db s3 postId ctxB t4 = .ok (p4, s4) ∧
      p4.question.upvotes = [{ username := userB.username, createdAt := t4 }] ∧
      p4.question.downvotes = [{ username := userA.username, createdAt := t3 }] ∧
      p4.question.voteCount = 0 := by
  obtain ⟨p1, e1⟩ : ∃ p, p = applyUpvote old userA.username t1 := ⟨_, rfl⟩
  obtain ⟨p2, e2⟩ : ∃ p, p = applyUpvote p1 userA.username t2 := ⟨_, rfl⟩
  obtain ⟨p3, e3⟩ : ∃ p, p = applyDownvote p2 userA.username t3 := ⟨_, rfl⟩
  obtain ⟨p4, e4⟩ : ∃ p, p = applyUpvote p3 userB.username t4 := ⟨_, rfl⟩
  have u1 : p1.question.upvotes = [{ username := userA.username, createdAt := t1 }] := by
    rw [e1, applyUpvote_upvotes, hup]; simp [voters]
  have d1 : p1.question.downvotes = [] := by
    rw [e1, applyUpvote_downvotes, hup, hdown]; simp [voters]
  have c1 : p1.question.voteCount = 1 := by
    have := applyUpvote_voteCount old userA.username t1
    rw [← e1, u1, d1] at this
    simpa using this
  have u2 : p2.question.upvotes = [] := by
    rw [e2, applyUpvote_upvotes, u1]; simp [voters]
  have d2 : p2.question.downvotes = [] := by
    rw [e2, applyUpvote_downvotes, u1, d1]; simp [voters]
  have c2 : p2.question.voteCount = 0 := by
    have := applyUpvote_voteCount p1 userA.username t2
    rw [← e2, u2, d2] at this
    simpa using this
  have d3 : p3.question.downvotes = [{ username := userA.username, createdAt := t3 }] := by
    rw [e3, applyDownvote_downvotes, d2]; simp [voters]
  have u3 : p3.question.upvotes = [] := by
    rw [e3, applyDownvote_upvotes, d2, u2]; simp [voters]
  have c3 : p3.question.voteCount = -1 := by
    have := applyDownvote_voteCount p2 userA.username t3
    rw [← e3, u3, d3] at this
    simpa using this
  have u4 : p4.question.upvotes = [{ username := userB.username, createdAt := t4 }] := by
    rw [e4, applyUpvote_upvotes, u3]; simp [voters]
  have d4 : p4.question.downvotes = [{ username := userA.username, createdAt := t3 }] := by
    rw [e4, applyUpvote_downvotes, u3, d3]; simp [voters, Ne.symm hne]
  have c4 : p4.question.voteCount = 0 := by
    have := applyUpvote_voteCount p3 userB.username t4
    rw [← e4, u4, d4] at this
    simpa using this
  have f1 := findById_save db store postId old p1 hfind (by rw [e1]; rfl)
  have f2 := findById_save db _ postId p1 p2 f1 (by rw [e2]; rfl)
  have f3 := findById_save db _ postId p2 p3 f2 (by rw [e3]; rfl)
  have r1 := upvotePost_eq db store postId ctxA t1 userA old hA hfind
  have r2 := upvotePost_eq db _ postId ctxA t2 userA p1 hA f1
  have r3 := downvotePost_eq db _ postId ctxA t3 userA p2 hA f2
  have r4 := upvotePost_eq db _ postId ctxB t4 userB p3 hB f3
  rw [← e1] at r1
  rw [← e2] at r2
  rw [← e3] at r3
  rw [← e4] at r4
  exact ⟨p1, _, p2, _, p3, _, p4, _, r1, u1, d1, c1, r2, u2, d2, c2, r3, d3, u3, c3,
    r4, u4, d4, c4⟩

/-- C5 with the callers `A` and `B` on the only post of a store. -/
theorem vote_scenario_witness :
    ∃ p1 s1 p2 s2 p3 s3 p4 s4,
      upvotePost demoDriver [mkPost "p1" true [] [] [] 0] "p1" (asUser "A") "t1"
        = .ok (p1, s1) ∧
      p1.question.upvotes = [{ username := "A", createdAt := "t1" }] ∧
      p1.question.downvotes = [] ∧ p1.question.voteCount = 1 ∧
      upvotePost demoDriver s1 "p1" (asUser "A") "t2" = .ok (p2, s2) ∧
      p2.question.upvotes = [] ∧ p2.question.downvotes = [] ∧ p2.question.voteCount = 0 ∧
      downvotePost demoDriver s2 "p1" (asUser "A") "t3" = .ok (p3, s3) ∧
      p3.question.downvotes = [{ username := "A", createdAt := "t3" }] ∧
      p3.question.upvotes = [] ∧ p3.question.voteCount = -1 ∧
      upvotePost demoDriver s3 "p1" (asUser "B") "t4" = .ok (p4, s4) ∧
      p4.question.upvotes = [{ username := "B", createdAt := "t4" }] ∧
      p4.question.downvotes = [{ username := "A", createdAt := "t3" }] ∧
      p4.question.voteCount = 0 :=
  vote_scenario demoDriver [mkPost "p1" true [] [] [] 0] "p1" (asUser "A") (asUser "B")
    ⟨"A", "A"⟩ ⟨"B", "B"⟩ (mkPost "p1" true [] [] [] 0) "t1" "t2" "t3" "t4" rfl rfl
    (by decide) rfl rfl rfl

/-! ## Lemmas on the queries -/

theorem supplied_some (t : String) (h : t ≠ "") : supplied (some t) = some t := by
  simp [supplied, Option.filter, h]

theorem getPosts_tag (db : Driver) (store : Store) (page : Option Int)
    (tag search : Option String) (featured : Bool) (t : String) (h : supplied tag = some t) :
    getPosts db store page tag search featured
      = .ok (paginate store (tagFilter t featured) 1) := by
  simp [getPosts, h]

theorem getPosts_search (db : Driver) (store : Store) (page : Option Int)
    (tag search : Option String) (featured : Bool) (s : String) (test : String → Bool)
    (ht : supplied tag = none) (hs : supplied search = some s) (hr : db.regex s = some test) :
    getPosts db store page tag search featured
      = .ok (paginate store (searchFilter test featured) 1) := by
  simp [getPosts, ht, hs, hr]

theorem getPosts_search_invalid (db : Driver) (store : Store) (page : Option Int)
    (tag search : Option String) (featured : Bool) (s : String)
    (ht : supplied tag = none) (hs : supplied search = some s) (hr : db.regex s = none) :
    getPosts db store page tag search featured
      = .error (.wrapped (.storage "Regular expression is invalid")) := by
  simp [getPosts, ht, hs, hr]

theorem getPosts_plain (db : Driver) (store : Store) (page : Option Int)
    (tag search : Option String) (featured : Bool)
    (ht : supplied tag = none) (hs : supplied search = none) :
    getPosts db store page tag search featured
      = .ok (paginate store (featuredFilter featured) (normalizePage page)) := by
  simp [getPosts, ht, hs]

theorem normalizePage_some (n : Int) :
    normalizePage (some n) = if n = 0 then 1 else n.natAbs := by
  unfold normalizePage
  by_cases h : n = 0
  · simp [h]
  · have h' : n.natAbs ≠ 0 := by simpa using h
    simp only [h, h', if_false]
    omega

theorem normalizePage_abs (n : Int) :
    normalizePage (some n) = normalizePage (some |n|) := by
  rw [normalizePage_some, normalizePage_some]
  by_cases h : n = 0
  · simp [h]
  · have h' : |n| ≠ 0 := by simpa using h
    simp only [h, h', if_false]
    exact (Int.natAbs_abs n).symm

theorem mathCeilDiv_four (n : Nat) : mathCeilDiv n 4 = ⌈(n : ℚ) / 4⌉₊ := by
  have hm : mathCeilDiv n 4 = (n + 3) / 4 := by
    unfold mathCeilDiv
    split <;> omega
  rw [hm]
  apply le_antisymm
  · rcases Nat.eq_zero_or_pos ((n + 3) / 4) with h0 | hpos
    · rw [h0]; exact Nat.zero_le _
    · have h1 : (n + 3) / 4 - 1 < ⌈(n : ℚ) / 4⌉₊ := by
        rw [Nat.lt_ceil, lt_div_iff₀ (by norm_num)]
        have : ((n + 3) / 4 - 1) * 4 < n := by omega
        exact_mod_cast this
      omega
  · rw [Nat.ceil_le, div_le_iff₀ (by norm_num)]
    have : n ≤ (n + 3) / 4 * 4 := by omega
    exact_mod_cast this

theorem mathCeilDiv_four_eq_zero (n : Nat) : mathCeilDiv n 4 = 0 ↔ n = 0 := by
  unfold mathCeilDiv
  split <;> omega

theorem paginate_pageOf (store : Store) (f : Post → Bool) (k : Nat) :
    PageOf store f k (paginate store f k) := rfl

theorem paginate_totalsOf (store : Store) (f : Post → Bool) (k : Nat) :
    TotalsOf store f (paginate store f k) :=
  ⟨rfl, mathCeilDiv_four _, mathCeilDiv_four_eq_zero _⟩

theorem getPosts_congr (db : Driver) (store : Store) (a b : Option Int)
    (tag search : Option String) (featured : Bool) (h : normalizePage a = normalizePage b) :
    getPosts db store a tag search featured = getPosts db store b tag search featured := by
  simp only [getPosts, h]

theorem getPosts_filtered (db : Driver) (store : Store) (a b : Option Int)
    (tag search : Option String) (featured : Bool)
    (h : (supplied tag).isSome = true ∨ (supplied search).isSome = true) :
    getPosts db store a tag search featured = getPosts db store b tag search featured := by
  cases ht : supplied tag with
  | some t => rw [getPosts_tag _ _ _ _ _ _ t ht, getPosts_tag _ _ _ _ _ _ t ht]
  | none =>
    cases hs : supplied search with
    | none => rw [ht, hs] at h; simp at h
    | some s =>
      cases hr : db.regex s with
      | none =>
        rw [getPosts_search_invalid _ _ _ _ _ _ s ht hs hr,
          getPosts_search_invalid _ _ _ _ _ _ s ht hs hr]
      | some test =>
        rw [getPosts_search _ _ _ _ _ _ s test ht hs hr,
          getPosts_search _ _ _ _ _ _ s test ht hs hr]

/-! ## Claims on the queries -/

/-- C6, as stated, fails: with neither tag nor search, page -2 selects the second page
(the fifth featured post), not the first four posts that page 1 selects. -/
theorem getPosts_negative_page_counterexample :
    getPosts demoDriver demoStore (some (-2)) none none true
        = .ok ⟨[mkPost "p5" true ["rust"] [] [] 0], 2, 5⟩ ∧
      getPosts demoDriver demoStore (some 1) none none true
        = .ok ⟨[mkPost "p1" true ["rust"] [] [] 0, mkPost "p2" true ["go"] [] [] 0,
            mkPost "p3" true ["rust", "go"] [] [] 0, mkPost "p4" true [] [] [] 0], 2, 5⟩ ∧
      getPosts demoDriver demoStore (some (-2)) none none true
        ≠ getPosts demoDriver demoStore (some 1) none none true := by
  have h1 : getPosts demoDriver demoStore (some (-2)) none none true
      = .ok ⟨[mkPost "p5" true ["rust"] [] [] 0], 2, 5⟩ := rfl
  have h2 : getPosts demoDriver demoStore (some 1) none none true
      = .ok ⟨[mkPost "p1" true ["rust"] [] [] 0, mkPost "p2" true ["go"] [] [] 0,
          mkPost "p3" true ["rust", "go"] [] [] 0, mkPost "p4" true [] [] [] 0], 2, 5⟩ := rfl
  refine ⟨h1, h2, ?_⟩
  rw [h1, h2]
  intro h
  have hlen := congrArg (fun r : PaginatedResult => r.posts.length) (Except.ok.inj h)
  exact absurd hlen (by decide)

/-- C6, amended: for every store, featured value, tag and search, `getPosts` with the
page absent or zero returns the result of page 1; with any integer page it returns
the result of the magnitude of that page (so page -n is page n); and when a tag or
a search is supplied every page argument returns the result of page 1. -/
theorem getPosts_page_normalised (db : Driver) (store : Store) (tag search : Option String)
    (featured : Bool) :
    getPosts db store none tag search featured
        = getPosts db store (some 1) tag search featured ∧
      getPosts db store (some 0) tag search featured
        = getPosts db store (some 1) tag search featured ∧
      (∀ n : Int, getPosts db store (some n) tag search featured
        = getPosts db store (some |n|) tag search featured) ∧
      (∀ page : Option Int,
        (supplied tag).isSome = true ∨ (supplied search).isSome = true →
          getPosts db store page tag search featured
            = getPosts db store (some 1) tag search featured) :=
  ⟨getPosts_congr db store _ _ tag search featured rfl,
    getPosts_congr db store _ _ tag search featured rfl,
    fun n => getPosts_congr db store _ _ tag search featured (normalizePage_abs n),
    fun page h => getPosts_filtered db store page (some 1) tag search featured h⟩

/-- C6, amended, on the scenario of the spec: page -3 with the tag `rust`. -/
theorem getPosts_page_normalised_witness :
    ((supplied (some "rust")).isSome = true ∨ (supplied none).isSome = true) ∧
      getPosts demoDriver demoStore (some (-3)) (some "rust") none true
        = getPosts demoDriver demoStore (some 1) (some "rust") none true :=
  ⟨Or.inl rfl,
    (getPosts_page_normalised demoDriver demoStore (some "rust") none true).2.2.2
      (some (-3)) (Or.inl rfl)⟩

/-- C7: in every branch of `getPosts` (tag, search with a pattern the store accepts,
no filter) and in `getUserPost` with a valid identifier, the call returns a result
whose posts are a page of the posts selected by one filter, whose `totalPosts` is the
number of stored posts that same filter selects, and whose `totalPages` is
`ceil(totalPosts / 4)`, which is 0 exactly when nothing matches. -/
theorem totals_match_filter (db : Driver) (store : Store) (page : Option Int)
    (tag search : Option String) (featured : Bool) (userId : String) :
    (∀ t, supplied tag = some t →
      ∃ r, getPosts db store page tag search featured = .ok r ∧
        PageOf store (tagFilter t featured) 1 r ∧ TotalsOf store (tagFilter t featured) r) ∧
    (∀ s test, supplied tag = none → supplied search = some s → db.regex s = some test →
      ∃ r, getPosts db store page tag search featured = .ok r ∧
        PageOf store (searchFilter test featured) 1 r ∧
        TotalsOf store (searchFilter test featured) r) ∧
    (supplied tag = none → supplied search = none →
      ∃ r, getPosts db store page tag search featured = .ok r ∧
        PageOf store (featuredFilter featured) (normalizePage page) r ∧
        TotalsOf store (featuredFilter featured) r) ∧
    (db.isValid userId = true →
      ∃ r, getUserPost db store userId page = .ok r ∧
        PageOf store (userFilter (db.objectID userId)) (normalizePage page) r ∧
        TotalsOf store (userFilter (db.objectID userId)) r) ∧
    (∀ r, getPosts db store page tag search featured = .ok r →
      r.totalPages = ⌈(r.totalPosts : ℚ) / 4⌉₊ ∧ (r.totalPages = 0 ↔ r.totalPosts = 0)) := by
  refine ⟨?_, ?_, ?_, ?_, ?_⟩
  · intro t ht
    exact ⟨_, getPosts_tag db store page tag search featured t ht,
      paginate_pageOf _ _ _, paginate_totalsOf _ _ _⟩
  · intro s test ht hs hr
    exact ⟨_, getPosts_search db store page tag search featured s test ht hs hr,
      paginate_pageOf _ _ _, paginate_totalsOf _ _ _⟩
  · intro ht hs
    exact ⟨_, getPosts_plain db store page tag search featured ht hs,
      paginate_pageOf _ _ _, paginate_totalsOf _ _ _⟩
  · intro hv
    refine ⟨paginate store (userFilter (db.objectID userId)) (normalizePage page), ?_,
      paginate_pageOf _ _ _, paginate_totalsOf _ _ _⟩
    simp [getUserPost, hv]
  · intro r hr
    cases ht : supplied tag with
    | some t =>
      rw [getPosts_tag _ _ _ _ _ _ t ht] at hr
      rw [← Except.ok.inj hr]
      exact (paginate_totalsOf _ _ _).2
    | none =>
      cases hs : supplied search with
      | none =>
        rw [getPosts_plain _ _ _ _ _ _ ht hs] at hr
        rw [← Except.ok.inj hr]
        exact (paginate_totalsOf _ _ _).2
      | some s =>
        cases hx : db.regex s with
        | none =>
          rw [getPosts_search_invalid _ _ _ _ _ _ s ht hs hx] at hr
          exact absurd hr (by simp)
        | some test =>
          rw [getPosts_search _ _ _ _ _ _ s test ht hs hx] at hr
          rw [← Except.ok.inj hr]
          exact (paginate_totalsOf _ _ _).2

/-- C7 on the second unfiltered page of the featured posts of `demoStore`, which holds
five of them: one post, two pages. -/
theorem totals_match_filter_witness :
    (supplied none = none) ∧
      (∃ r, getPosts demoDriver demoStore (some 2) none none true = .ok r ∧
        PageOf demoStore (featuredFilter true) (normalizePage (some 2)) r ∧
        TotalsOf demoStore (featuredFilter true) r) ∧
      getPosts demoDriver demoStore (some 2) none none true
        = .ok ⟨[mkPost "p5" true ["rust"] [] [] 0], 2, 5⟩ :=
  ⟨rfl, (totals_match_filter demoDriver demoStore (some 2) none none true "u1").2.2.1 rfl rfl,
    rfl⟩

/-- C8: tag takes precedence over search.  With a non-empty tag, `getPosts` returns the
same result whatever the search argument, in particular the result of the call with
search omitted, and that result is the first page and the totals of the tag filter
(tag name and featured flag) alone. -/
theorem tag_precedes_search (db : Driver) (store : Store) (page : Option Int)
    (featured : Bool) (t : String) (search : Option String) (ht : t ≠ "") :
    getPosts db store page (some t) search featured
        = getPosts db store page (some t) none featured ∧
      ∃ r, getPosts db store page (some t) search featured = .ok r ∧
        PageOf store (tagFilter t featured) 1 r ∧ TotalsOf store (tagFilter t featured) r := by
  have h := supplied_some t ht
  refine ⟨?_, _, getPosts_tag db store page (some t) search featured t h,
    paginate_pageOf _ _ _, paginate_totalsOf _ _ _⟩
  rw [getPosts_tag db store page (some t) search featured t h,
    getPosts_tag db store page (some t) none featured t h]

/-- C8 on `demoStore` with the tag `go` and a search that by itself selects every
stored title. -/
theorem tag_precedes_search_witness :
    "go" ≠ "" ∧
      (getPosts demoDriver demoStore (some 1) (some "go") (some "t") true
          = getPosts demoDriver demoStore (some 1) (some "go") none true ∧
        ∃ r, getPosts demoDriver demoStore (some 1) (some "go") (some "t") true = .ok r ∧
          PageOf demoStore (tagFilter "go" true) 1 r ∧
          TotalsOf demoStore (tagFilter "go" true) r) ∧
      getPosts demoDriver demoStore (some 1) (some "go") (some "t") true
        = .ok ⟨[mkPost "p2" true ["go"] [] [] 0, mkPost "p3" true ["rust", "go"] [] [] 0],
            1, 2⟩ ∧
      getPosts demoDriver demoStore (some 1) none (some "t") true
        = .ok ⟨[mkPost "p1" true ["rust"] [] [] 0, mkPost "p2" true ["go"] [] [] 0,
            mkPost "p3" true ["rust", "go"] [] [] 0, mkPost "p4" true [] [] [] 0], 2, 5⟩ :=
  ⟨by decide,
    tag_precedes_search demoDriver demoStore (some 1) true "go" (some "t") (by decide),
    rfl, rfl⟩

/-- C9: a tag or search filter forces page 1.  With a non-empty tag, `getPosts` returns
one and the same result for every page argument, and its posts are the first at most 4
stored posts, in storage order, that carry the tag and have the requested featured
flag.  With no tag and a non-empty search, the outcome does not depend on the page
argument either, and for a pattern the store accepts the posts are the first at most 4
stored posts whose title matches and that have the requested featured flag. -/
theorem filter_forces_first_page (db : Driver) (store : Store) (tag search : Option String)
    (featured : Bool) :
    (∀ t, t ≠ "" →
      ∃ r, (∀ page, getPosts db store page (some t) search featured = .ok r) ∧
        r.posts = (store.filter (fun p =>
          p.question.tags.any (fun g => g.name == t) && p.featured == featured)).take 4 ∧
        r.posts.length ≤ 4) ∧
    (∀ s, supplied tag = none → s ≠ "" →
      (∀ page page', getPosts db store page tag (some s) featured
        = getPosts db store page' tag (some s) featured) ∧
      ∀ test, db.regex s = some test →
        ∃ r, (∀ page, getPosts db store page tag (some s) featured = .ok r) ∧
          r.posts = (store.filter (fun p =>
            test p.question.title && p.featured == featured)).take 4 ∧
          r.posts.length ≤ 4) := by
  constructor
  · intro t ht
    refine ⟨paginate store (tagFilter t featured) 1,
      fun page => getPosts_tag db store page (some t) search featured t (supplied_some t ht),
      ?_, ?_⟩
    · simp [paginate, findPage, perPage]
      rfl
    · simp only [paginate, findPage, perPage, List.length_take]
      exact Nat.min_le_left _ _
  · intro s htag hs
    have hsup := supplied_some s hs
    refine ⟨fun page page' => getPosts_filtered db store page page' tag (some s) featured
      (Or.inr (by rw [hsup]; rfl)), ?_⟩
    intro test hr
    refine ⟨paginate store (searchFilter test featured) 1,
      fun page => getPosts_search db store page tag (some s) featured s test htag hsup hr,
      ?_, ?_⟩
    · simp [paginate, findPage, perPage]
      rfl
    · simp only [paginate, findPage, perPage, List.length_take]
      exact Nat.min_le_left _ _

/-- C9 on the scenario of the spec: `getPosts(page=-3, tag="rust", featured=true)` is the
first page of the featured posts tagged `rust`. -/
theorem filter_forces_first_page_witness :
    "rust" ≠ "" ∧
      (∃ r, (∀ page, getPosts demoDriver demoStore page (some "rust") none true = .ok r) ∧
        r.posts = (demoStore.filter (fun p =>
          p.question.tags.any (fun g => g.name == "rust") && p.featured == true)).take 4 ∧
        r.posts.length ≤ 4) ∧
      getPosts demoDriver demoStore (some (-3)) (some "rust") none true
        = .ok ⟨[mkPost "p1" true ["rust"] [] [] 0, mkPost "p3" true ["rust", "go"] [] [] 0,
            mkPost "p5" true ["rust"] [] [] 0], 1, 3⟩ :=
  ⟨by decide,
    (filter_forces_first_page demoDriver demoStore none none true).1 "rust" (by decide),
    rfl⟩

/-- C10: with neither tag nor search supplied and a positive integer page `p`, `getPosts`
returns a result whose posts are the stored posts with the requested featured flag, in
storage order, after dropping the first `4 * (p - 1)` of them and keeping at most 4;
the page holds at most 4 posts and each of them has the requested featured flag. -/
theorem unfiltered_page (db : Driver) (store : Store) (tag search : Option String)
    (featured : Bool) (p : Int) (hp : 0 < p) (ht : supplied tag = none)
    (hs : supplied search = none) :
    ∃ r, getPosts db store (some p) tag search featured = .ok r ∧
      r.posts = ((store.filter (fun q => q.featured == featured)).drop
        (4 * (p.toNat - 1))).take 4 ∧
      r.posts.length ≤ 4 ∧ ∀ q ∈ r.posts, q.featured = featured := by
  have hn : normalizePage (some p) = p.toNat := by
    rw [normalizePage_some]
    have : p ≠ 0 := by omega
    simp only [this, if_false]
    omega
  have hposts : (paginate store (featuredFilter featured) (normalizePage (some p))).posts
      = ((store.filter (fun q => q.featured == featured)).drop (4 * (p.toNat - 1))).take 4 := by
    rw [hn]; rfl
  refine ⟨_, getPosts_plain db store (some p) tag search featured ht hs, hposts, ?_, ?_⟩
  · rw [hposts, List.length_take]
    exact Nat.min_le_left _ _
  · intro q hq
    rw [hposts] at hq
    have hq' := List.mem_of_mem_drop (List.mem_of_mem_take hq)
    simpa using (List.mem_filter.mp hq').2

/-- C10 on the second page of the featured posts of `demoStore`. -/
theorem unfiltered_page_witness :
    (0 : Int) < 2 ∧ supplied none = none ∧
      (∃ r, getPosts demoDriver demoStore (some 2) none none true = .ok r ∧
        r.posts = ((demoStore.filter (fun q => q.featured == true)).drop
          (4 * ((2 : Int).toNat - 1))).take 4 ∧
        r.posts.length ≤ 4 ∧ ∀ q ∈ r.posts, q.featured = true) ∧
      ((demoStore.filter (fun q => q.featured == true)).drop
          (4 * ((2 : Int).toNat - 1))).take 4 = [mkPost "p5" true ["rust"] [] [] 0] :=
  ⟨by decide, rfl,
    unfiltered_page demoDriver demoStore none none true 2 (by decide) rfl rfl, rfl⟩

/-! ## Claims on deletion, creation and the single-post queries -/

/-- C11: for a stored post found under `postId` and an authenticated caller whose
username differs from the username stored in the post, `deletePost` fails and the
store it leaves behind is the store it was given: the post is still found under
`postId` with all its fields, and no other post is removed or altered. -/
theorem deletePost_non_owner (db : Driver) (store : Store) (postId : String)
    (context : Context) (user : User) (post : Post)
    (hauth : checkAuth context = .ok user)
    (hfind : findById db store postId = .ok (some post))
    (hne : user.username ≠ post.question.username) :
    (deletePost db store postId context).1
        = .error (.wrapped (.authentication "Action not allowed")) ∧
      (deletePost db store postId context).2 = store ∧
      findById db (deletePost db store postId context).2 postId = .ok (some post) := by
  have hb : (user.username == post.question.username) = false := by simpa using hne
  have h : deletePost db store postId context
      = (.error (.wrapped (.authentication "Action not allowed")), store) := by
    simp [deletePost, hauth, hfind, hb]
  rw [h]
  exact ⟨rfl, rfl, hfind⟩

/-- C11 on `demoStore`, whose posts belong to `owner`, with the caller `mallory`. -/
theorem deletePost_non_owner_witness :
    (deletePost demoDriver demoStore "p2" (asUser "mallory")).1
        = .error (.wrapped (.authentication "Action not allowed")) ∧
      (deletePost demoDriver demoStore "p2" (asUser "mallory")).2 = demoStore ∧
      findById demoDriver (deletePost demoDriver demoStore "p2" (asUser "mallory")).2 "p2"
        = .ok (some (mkPost "p2" true ["go"] [] [] 0)) :=
  deletePost_non_owner demoDriver demoStore "p2" (asUser "mallory") ⟨"mallory", "mallory"⟩
    (mkPost "p2" true ["go"] [] [] 0) rfl rfl (by decide)

/-- C12 fails on the code: on an ownership mismatch `deletePost` surfaces the
`AuthenticationError` of line 153 wrapped into a plain `Error` by the `catch` of line
156, which is the class of error it also surfaces when the post does not exist; the
owner, for comparison, deletes the post. -/
theorem deletePost_mismatch_kind :
    (deletePost demoDriver demoStore "p2" (asUser "mallory")).1
        = .error (.wrapped (.authentication "Action not allowed")) ∧
      (deletePost demoDriver demoStore "p9" (asUser "mallory")).1
        = .error (.wrapped (.typeError "Cannot read property 'question' of null")) ∧
      Err.kind (.wrapped (.authentication "Action not allowed")) = ErrKind.plain ∧
      Err.kind (.wrapped (.authentication "Action not allowed"))
        = Err.kind (.wrapped (.typeError "Cannot read property 'question' of null")) ∧
      Err.kind (.wrapped (.authentication "Action not allowed")) ≠ ErrKind.authentication ∧
      (deletePost demoDriver demoStore "p2" (asUser "owner")).1
        = .ok "Post deleted successfully" :=
  ⟨rfl, rfl, rfl, rfl, by decide, rfl⟩

theorem mem_dropWhile_of_not (p : Char → Bool) (c : Char) (hn : ¬ p c = true) :
    ∀ l : List Char, c ∈ l → c ∈ l.dropWhile p := by
  intro l
  induction l with
  | nil => intro hc; simp at hc
  | cons a t ih =>
    intro hc
    rw [List.dropWhile_cons]
    by_cases ha : p a = true
    · simp only [ha, if_true]
      rcases List.mem_cons.mp hc with h | ht
      · rw [h] at hn; exact absurd ha hn
      · exact ih ht
    · simp only [ha]
      exact hc

theorem jsTrim_eq_empty_iff (s : String) :
    jsTrim s = "" ↔ ∀ c ∈ s.toList, jsWhiteSpace c = true := by
  unfold jsTrim
  rw [String.ext_iff]
  show ((s.toList.dropWhile jsWhiteSpace).reverse.dropWhile jsWhiteSpace).reverse = [] ↔ _
  rw [List.reverse_eq_nil_iff, List.dropWhile_eq_nil_iff]
  constructor
  · intro h c hc
    by_contra hn
    exact hn (h c (List.mem_reverse.mpr (mem_dropWhile_of_not _ c hn _ hc)))
  · intro h c hc
    rw [List.mem_reverse] at hc
    exact h c ((List.dropWhile_sublist jsWhiteSpace).subset hc)

/-- C13: `createPost` checks authentication, title, body and tags in this order and
reports the first check that fails, leaving the store as it was; when none fails it
appends to the store, and returns, a post with the given title, body and tags and the
caller's identifier and username; and it succeeds exactly when none fails. -/
theorem createPost_checks (db : Driver) (store : Store) (title body : String)
    (tags : Option (List Tag)) (context : Context) (now newId : String) :
    (context.user = none →
      createPost db store title body tags context now newId
        = (.error (.authentication context.failure), store)) ∧
    (∀ user, context.user = some user →
      (jsTrim title = "" →
        createPost db store title body tags context now newId
          = (.error (.error "Post title must not be empty"), store)) ∧
      (jsTrim title ≠ "" → jsTrim body = "" →
        createPost db store title body tags context now newId
          = (.error (.error "Post body must not be empty"), store)) ∧
      (jsTrim title ≠ "" → jsTrim body ≠ "" → (tags = none ∨ tags = some []) →
        createPost db store title body tags context now newId
          = (.error (.error "Post Tags must not be empty"), store)) ∧
      (∀ l, jsTrim title ≠ "" → jsTrim body ≠ "" → tags = some l → l ≠ [] →
        ∃ post, createPost db store title body tags context now newId
            = (.ok post, store ++ [post]) ∧
          post.question.title = title ∧ post.question.body = body ∧
          post.question.tags = l ∧ post.user = user.id ∧
          post.question.username = user.username ∧ post.createdAt = now ∧
          post.question.upvotes = [] ∧ post.question.downvotes = [] ∧
          post.question.voteCount = 0)) ∧
    ((∃ post, (createPost db store title body tags context now newId).1 = .ok post) ↔
      (∃ user, context.user = some user) ∧ jsTrim title ≠ "" ∧ jsTrim body ≠ "" ∧
        ∃ l, tags = some l ∧ l ≠ []) := by
  refine ⟨?_, ?_, ?_⟩
  · intro h
    simp [createPost, checkAuth, h]
  · intro user hu
    have hauth : checkAuth context = .ok user := by simp [checkAuth, hu]
    refine ⟨?_, ?_, ?_, ?_⟩
    · intro ht
      simp [createPost, hauth, ht]
    · intro ht hb
      simp [createPost, hauth, ht, hb]
    · intro ht hb htags
      rcases htags with h | h <;> simp [createPost, hauth, ht, hb, h]
    · intro l ht hb hl hne
      have hlen : l.length ≠ 0 := fun h0 => hne (List.length_eq_zero.mp h0)
      refine ⟨{ id := newId
                question :=
                  { title := title, body := body, tags := l, username := user.username,
                    upvotes := [], downvotes := [], voteCount := 0 }
                featured := db.featuredDefault
                user := user.id
                createdAt := now }, ?_, rfl, rfl, rfl, rfl, rfl, rfl, rfl, rfl, rfl⟩
      simp [createPost, hauth, ht, hb, hl, hne]
  · cases hu : context.user with
    | none => simp [createPost, checkAuth, hu]
    | some user =>
      have hauth : checkAuth context = .ok user := by simp [checkAuth, hu]
      by_cases ht : jsTrim title = ""
      · simp [createPost, hauth, ht]
      · by_cases hb : jsTrim body = ""
        · simp [createPost, hauth, ht, hb]
        · cases tags with
          | none => simp [createPost, hauth, ht, hb]
          | some l =>
            by_cases hl : l = []
            · simp [createPost, hauth, ht, hb, hl]
            · simp [createPost, hauth, ht, hb, hl]

/-- C13 on a title of a space and a tab, which fails the title check, and on a
request that passes every check. -/
theorem createPost_checks_witness :
    (asUser "A").user = some ⟨"A", "A"⟩ ∧ jsTrim " \t" = "" ∧
      createPost demoDriver demoStore " \t" "b" (some [⟨"rust"⟩]) (asUser "A") "now" "p7"
        = (.error (.error "Post title must not be empty"), demoStore) ∧
      ∃ post, createPost demoDriver demoStore " a " "b" (some [⟨"rust"⟩]) (asUser "A") "now"
            "p7" = (.ok post, demoStore ++ [post]) ∧
          post.question.title = " a " ∧ post.question.body = "b" ∧
          post.question.tags = [⟨"rust"⟩] ∧ post.user = "A" ∧
          post.question.username = "A" ∧ post.createdAt = "now" ∧
          post.question.upvotes = [] ∧ post.question.downvotes = [] ∧
          post.question.voteCount = 0 :=
  ⟨rfl, by decide,
    ((createPost_checks demoDriver demoStore " \t" "b" (some [⟨"rust"⟩]) (asUser "A") "now"
      "p7").2.1 ⟨"A", "A"⟩ rfl).1 (by decide),
    ((createPost_checks demoDriver demoStore " a " "b" (some [⟨"rust"⟩]) (asUser "A") "now"
      "p7").2.1 ⟨"A", "A"⟩ rfl).2.2.2 [⟨"rust"⟩] (by decide) (by decide) rfl (by decide)⟩

/-- C14: `getUserPost` fails with `USER_NOT_FOUND` exactly when `userId` is not a valid
identifier, and then whatever the store holds; for a valid `userId` it returns a
result (never `POST_NOT_FOUND`), whose posts are the stored posts owned by that
identifier after skipping `4 * (page - 1)` of them and keeping at most 4, and which is
the empty page when the user owns no post. -/
theorem getUserPost_outcome (db : Driver) (store : Store) (userId : String)
    (page : Option Int) :
    (getUserPost db store userId page
        = .error (.apollo "User doesn't exist check authentication" "USER_NOT_FOUND") ↔
      db.isValid userId = false) ∧
    (db.isValid userId = false → ∀ store' : Store,
      getUserPost db store' userId page
        = .error (.apollo "User doesn't exist check authentication" "USER_NOT_FOUND")) ∧
    (db.isValid userId = true →
      ∃ r, getUserPost db store userId page = .ok r ∧
        r.posts = ((store.filter (fun p => p.user == db.objectID userId)).drop
          (4 * (normalizePage page - 1))).take 4 ∧
        (∀ p ∈ r.posts, p.user = db.objectID userId) ∧ r.posts.length ≤ 4 ∧
        ((∀ p ∈ store, p.user ≠ db.objectID userId) →
          r.posts = [] ∧ r.totalPosts = 0 ∧ r.totalPages = 0)) := by
  refine ⟨?_, ?_, ?_⟩
  · cases hv : db.isValid userId <;> simp [getUserPost, hv]
  · intro hv store'
    simp [getUserPost, hv]
  · intro hv
    have hposts : (paginate store (userFilter (db.objectID userId)) (normalizePage page)).posts
        = ((store.filter (fun p => p.user == db.objectID userId)).drop
          (4 * (normalizePage page - 1))).take 4 := rfl
    refine ⟨paginate store (userFilter (db.objectID userId)) (normalizePage page), ?_,
      hposts, ?_, ?_, ?_⟩
    · simp [getUserPost, hv]
    · intro p hp
      rw [hposts] at hp
      have hp' := List.mem_of_mem_drop (List.mem_of_mem_take hp)
      simpa using (List.mem_filter.mp hp').2
    · rw [hposts, List.length_take]
      exact Nat.min_le_left _ _
    · intro hnone
      have hnil : store.filter (userFilter (db.objectID userId)) = [] := by
        rw [List.filter_eq_nil_iff]
        intro p hp
        simpa [userFilter] using hnone p hp
      simp [paginate, findPage, countMatching, hnil, mathCeilDiv]

/-- C14 on `demoStore`, whose posts belong to the identifier `u1`: the second page of
`u1` and the empty page of a user without posts. -/
theorem getUserPost_outcome_witness :
    demoDriver.isValid "u1" = true ∧
      (∃ r, getUserPost demoDriver demoStore "u1" (some 2) = .ok r ∧
        r.posts = ((demoStore.filter (fun p => p.user == demoDriver.objectID "u1")).drop
          (4 * (normalizePage (some 2) - 1))).take 4 ∧
        (∀ p ∈ r.posts, p.user = demoDriver.objectID "u1") ∧ r.posts.length ≤ 4 ∧
        ((∀ p ∈ demoStore, p.user ≠ demoDriver.objectID "u1") →
          r.posts = [] ∧ r.totalPosts = 0 ∧ r.totalPages = 0)) ∧
      getUserPost demoDriver demoStore "u1" (some 2)
        = .ok ⟨[mkPost "p5" true ["rust"] [] [] 0, mkPost "p6" false ["rust"] [] [] 0], 2, 6⟩ ∧
      getUserPost demoDriver demoStore "u2" none = .ok ⟨[], 0, 0⟩ :=
  ⟨rfl, (getUserPost_outcome demoDriver demoStore "u1" (some 2)).2.2 rfl, rfl, rfl⟩

/-- C15: `getPost` returns the stored post that the lookup finds under `postId`; when
the identifier is malformed, when no stored post has it, and in general whenever the
lookup does not yield a post, it fails with one and the same error, code
`POST_NOT_FOUND` and message `Post not found please check again`. -/
theorem getPost_outcome (db : Driver) (store : Store) (postId : String) :
    (∀ post, findById db store postId = .ok (some post) →
      getPost db store postId = .ok post) ∧
    (db.castId postId = none →
      getPost db store postId
        = .error (.apollo "Post not found please check again" "POST_NOT_FOUND")) ∧
    (∀ oid, db.castId postId = some oid → (∀ p ∈ store, p.id ≠ oid) →
      getPost db store postId
        = .error (.apollo "Post not found please check again" "POST_NOT_FOUND")) ∧
    ((∀ post, findById db store postId ≠ .ok (some post)) →
      getPost db store postId
        = .error (.apollo "Post not found please check again" "POST_NOT_FOUND")) ∧
    (∀ oid post, db.castId postId = some oid →
      store.find? (fun p => p.id == oid) = some post → getPost db store postId = .ok post) := by
  refine ⟨?_, ?_, ?_, ?_, ?_⟩
  · intro post h
    simp [getPost, h]
  · intro h
    simp [getPost, findById, h]
  · intro oid h hnone
    have hf : store.find? (fun p => p.id == oid) = none := by
      rw [List.find?_eq_none]
      intro p hp
      simpa using hnone p hp
    simp [getPost, findById, h, hf]
  · intro h
    unfold getPost
    cases hf : findById db store postId with
    | error e => rfl
    | ok o =>
      cases o with
      | none => rfl
      | some post => exact absurd hf (h post)
  · intro oid post h hf
    simp [getPost, findById, h, hf]

/-- C15 on `demoStore`: a stored post, and an identifier no stored post has. -/
theorem getPost_outcome_witness :
    findById demoDriver demoStore "p4" = .ok (some (mkPost "p4" true [] [] [] 0)) ∧
      getPost demoDriver demoStore "p4" = .ok (mkPost "p4" true [] [] [] 0) ∧
      getPost demoDriver demoStore "p9"
        = .error (.apollo "Post not found please check again" "POST_NOT_FOUND") :=
  ⟨rfl, (getPost_outcome demoDriver demoStore "p4").1 _ rfl,
    (getPost_outcome demoDriver demoStore "p9").2.2.1 "p9" rfl (by decide)⟩

/-! ## Further claims on the vote mutations -/

theorem swapVotes_id (post : Post) : (swapVotes post).id = post.id := rfl

theorem swapVotes_swapVotes (post : Post) : swapVotes (swapVotes post) = post := by
  obtain ⟨id, ⟨title, body, tags, username, up, down, vc⟩, featured, user, createdAt⟩ := post
  simp [swapVotes]

theorem applyDownvote_eq_swap (post : Post) (u now : String) :
    applyDownvote post u now = swapVotes (applyUpvote (swapVotes post) u now) := by
  obtain ⟨id, ⟨title, body, tags, username, up, down, vc⟩, featured, user, createdAt⟩ := post
  simp only [applyDownvote, applyUpvote, swapVotes]
  by_cases h1 : (down.find? (fun v => v.username == u)).isSome = true <;>
    by_cases h2 : (up.find? (fun v => v.username == u)).isSome = true <;>
    simp [h1, h2]

theorem find_map_swapVotes (store : Store) (oid : String) :
    (store.map swapVotes).find? (fun p => p.id == oid)
      = (store.find? (fun p => p.id == oid)).map swapVotes := by
  induction store with
  | nil => rfl
  | cons a t ih =>
    simp only [List.map_cons, List.find?_cons, swapVotes_id]
    cases h : (a.id == oid)
    · simpa using ih
    · simp

theorem save_map_swapVotes (store : Store) (post : Post) :
    (save (store.map swapVotes) post).map swapVotes = save store (swapVotes post) := by
  simp only [save, List.map_map]
  apply List.map_congr_left
  intro p _
  simp only [Function.comp, swapVotes_id]
  by_cases h : p.id = post.id
  · simp [h]
  · simp [h, swapVotes_swapVotes]

/-- C16: `downvotePost` is the mirror image of `upvotePost`.  With `swapVotes` the map
that exchanges the two vote lists and negates the count, the in-memory update of a
downvote is `swapVotes` of the update of an upvote on the swapped post, and the
resolver `downvotePost` on a store is `upvotePost` on the swapped store with its
outcome swapped back.  Both resolvers implement the one reconciliation of the spec,
`upvotePost` with the upvotes as this side and `downvotePost` with the downvotes. -/
theorem downvote_mirrors_upvote (db : Driver) (store : Store) (postId : String)
    (context : Context) (post : Post) (u now : String) :
    applyDownvote post u now = swapVotes (applyUpvote (swapVotes post) u now) ∧
    downvotePost db store postId context now =
      (match upvotePost db (store.map swapVotes) postId context now with
        | .ok (p, s) => .ok (swapVotes p, s.map swapVotes)
        | .error e => .error e) ∧
    ((applyUpvote post u now).question.upvotes,
        (applyUpvote post u now).question.downvotes)
      = reconcile post.question.upvotes post.question.downvotes u now ∧
    ((applyDownvote post u now).question.downvotes,
        (applyDownvote post u now).question.upvotes)
      = reconcile post.question.downvotes post.question.upvotes u now := by
  refine ⟨applyDownvote_eq_swap post u now, ?_, ?_, ?_⟩
  · unfold downvotePost upvotePost
    cases ha : checkAuth context with
    | error e => rfl
    | ok user =>
      simp only []
      unfold findById
      cases hc : db.castId postId with
      | none => rfl
      | some oid =>
        simp only [find_map_swapVotes]
        cases hf : store.find? (fun p => p.id == oid) with
        | none => rfl
        | some old =>
          simp only [Option.map_some', save_map_swapVotes, applyDownvote_eq_swap,
            swapVotes_swapVotes]
  · rw [applyUpvote_upvotes, applyUpvote_downvotes]
    unfold reconcile
    by_cases h : u ∈ voters post.question.upvotes
    · have h' : u ∈ post.question.upvotes.map (fun v => v.username) := h
      simp only [h, h', if_true]
    · have h' : u ∉ post.question.upvotes.map (fun v => v.username) := h
      simp only [h, h', if_false]
  · rw [applyDownvote_upvotes, applyDownvote_downvotes]
    unfold reconcile
    by_cases h : u ∈ voters post.question.downvotes
    · have h' : u ∈ post.question.downvotes.map (fun v => v.username) := h
      simp only [h, h', if_true]
    · have h' : u ∉ post.question.downvotes.map (fun v => v.username) := h
      simp only [h, h', if_false]

theorem filter_ne_idem (votes : List Vote) (u : String) :
    (votes.filter (fun v => v.username != u)).filter (fun v => v.username != u)
      = votes.filter (fun v => v.username != u) := by
  simp [List.filter_filter]

theorem filter_ne_append_single (votes : List Vote) (u now : String) :
    (votes ++ [({ username := u, createdAt := now } : Vote)]).filter
        (fun v => v.username != u)
      = votes.filter (fun v => v.username != u) := by
  simp [List.filter_append]

theorem applyVote_others (kind : VoteKind) (old : Post) (u now : String) :
    (applyVote kind old u now).question.upvotes.filter (fun v => v.username != u)
        = old.question.upvotes.filter (fun v => v.username != u) ∧
      (applyVote kind old u now).question.downvotes.filter (fun v => v.username != u)
        = old.question.downvotes.filter (fun v => v.username != u) := by
  cases kind
  · simp only [applyVote, applyUpvote_upvotes, applyUpvote_downvotes]
    by_cases h : u ∈ voters old.question.upvotes
    · simp only [h, if_true, filter_ne_idem, and_self]
    · simp only [h, if_false, filter_ne_idem, filter_ne_append_single, and_self]
  · simp only [applyVote, applyDownvote_upvotes, applyDownvote_downvotes]
    by_cases h : u ∈ voters old.question.downvotes
    · simp only [h, if_true, filter_ne_idem, and_self]
    · simp only [h, if_false, filter_ne_idem, filter_ne_append_single, and_self]

theorem applyVote_fields (kind : VoteKind) (old : Post) (u now : String) :
    (applyVote kind old u now).question.title = old.question.title ∧
      (applyVote kind old u now).question.body = old.question.body ∧
      (applyVote kind old u now).question.tags = old.question.tags ∧
      (applyVote kind old u now).question.username = old.question.username ∧
      (applyVote kind old u now).user = old.user ∧
      (applyVote kind old u now).featured = old.featured ∧
      (applyVote kind old u now).createdAt = old.createdAt ∧
      (applyVote kind old u now).id = old.id := by
  cases kind
  · simp only [applyVote, applyUpvote]
    split_ifs <;> simp
  · simp only [applyVote, applyDownvote]
    split_ifs <;> simp

theorem save_frame (store : Store) (post : Post) :
    (save store post).length = store.length ∧
      ∀ (i : Nat) (p : Post), store[i]? = some p → p.id ≠ post.id →
        (save store post)[i]? = some p := by
  refine ⟨by simp [save], ?_⟩
  intro i p hp hne
  have hb : (p.id == post.id) = false := by simpa using hne
  simp only [save, List.getElem?_map, hp, Option.map_some', hb]
  rfl

theorem callVote_frame (db : Driver) (store : Store) (c : VoteCall) (post : Post)
    (store' : Store) (h : callVote db store c = .ok (post, store')) :
    ∃ user old, checkAuth c.context = .ok user ∧
      findById db store c.postId = .ok (some old) ∧
      VoteFrame store old user.username post store' := by
  obtain ⟨user, old, ha, hf, hpost, hstore⟩ := callVote_ok db store c post store' h
  refine ⟨user, old, ha, hf, ?_⟩
  have ho := applyVote_others c.kind old user.username c.now
  have hfld := applyVote_fields c.kind old user.username c.now
  have hs := save_frame store post
  rw [← hpost] at ho hfld
  rw [hstore]
  refine ⟨ho.1, ho.2, hfld.1, hfld.2.1, hfld.2.2.1, hfld.2.2.2.1, hfld.2.2.2.2.1,
    hfld.2.2.2.2.2.1, hfld.2.2.2.2.2.2.1, hfld.2.2.2.2.2.2.2, hs.1, ?_⟩
  intro i p hp hne
  exact hs.2 i p hp (by rw [hfld.2.2.2.2.2.2.2]; exact hne)

/-- C17: a vote toggle touches only the caller's own vote and the count.  After a
successful `upvotePost` or `downvotePost` by the caller `u` on the stored post `old`,
the records of every other username in the upvotes and in the downvotes are the same
records in the same order, the title, body, tags, owner, featured flag, creation time
and identifier of the post are those of `old`, and every post stored under another
identifier is unchanged at its position in the store. -/
theorem vote_frame (db : Driver) (store : Store) (postId : String) (context : Context)
    (now : String) :
    (∀ post store', upvotePost db store postId context now = .ok (post, store') →
      ∃ user old, checkAuth context = .ok user ∧
        findById db store postId = .ok (some old) ∧
        VoteFrame store old user.username post store') ∧
    (∀ post store', downvotePost db store postId context now = .ok (post, store') →
      ∃ user old, checkAuth context = .ok user ∧
        findById db store postId = .ok (some old) ∧
        VoteFrame store old user.username post store') :=
  ⟨fun post store' h => callVote_frame db store ⟨.up, postId, context, now⟩ post store' h,
    fun post store' h => callVote_frame db store ⟨.down, postId, context, now⟩ post store' h⟩

/-- C17 on `demoStore` with the third post upvoted by `B`: an upvote of it by `A`. -/
theorem vote_frame_witness :
    upvotePost demoDriver
        [mkPost "p1" true [] [] [] 0, mkPost "p3" true [] [⟨"B", "t0"⟩] [⟨"A", "t0"⟩] 0]
        "p3" (asUser "A") "t1"
      = .ok (mkPost "p3" true [] [⟨"B", "t0"⟩, ⟨"A", "t1"⟩] [] 2,
          [mkPost "p1" true [] [] [] 0,
            mkPost "p3" true [] [⟨"B", "t0"⟩, ⟨"A", "t1"⟩] [] 2]) ∧
      ∃ user old, checkAuth (asUser "A") = .ok user ∧
        findById demoDriver
          [mkPost "p1" true [] [] [] 0, mkPost "p3" true [] [⟨"B", "t0"⟩] [⟨"A", "t0"⟩] 0]
          "p3" = .ok (some old) ∧
        VoteFrame
          [mkPost "p1" true [] [] [] 0, mkPost "p3" true [] [⟨"B", "t0"⟩] [⟨"A", "t0"⟩] 0]
          old user.username (mkPost "p3" true [] [⟨"B", "t0"⟩, ⟨"A", "t1"⟩] [] 2)
          [mkPost "p1" true [] [] [] 0,
            mkPost "p3" true [] [⟨"B", "t0"⟩, ⟨"A", "t1"⟩] [] 2] :=
  ⟨rfl,
    (vote_frame demoDriver
      [mkPost "p1" true [] [] [] 0, mkPost "p3" true [] [⟨"B", "t0"⟩] [⟨"A", "t0"⟩] 0]
      "p3" (asUser "A") "t1").1 _ _ rfl⟩

theorem voters_filter (votes : List Vote) (u : String) :
    voters (votes.filter (fun v => v.username != u)) = (voters votes).filter (fun w => w != u) := by
  unfold voters
  rw [List.filter_map]
  rfl

theorem nodup_voters_filter (votes : List Vote) (u : String) (h : (voters votes).Nodup) :
    (voters (votes.filter (fun v => v.username != u))).Nodup := by
  rw [voters_filter]
  exact h.filter _

theorem nodup_voters_append (votes : List Vote) (u now : String) (h : (voters votes).Nodup)
    (hu : u ∉ voters votes) :
    (voters (votes ++ [{ username := u, createdAt := now }])).Nodup := by
  rw [voters_append, List.nodup_append]
  refine ⟨h, by simp [voters], ?_⟩
  intro w hw hw'
  rw [mem_voters_single] at hw'
  exact hu (hw' ▸ hw)

theorem applyVote_votersUnique (kind : VoteKind) (post : Post) (u now : String)
    (h : VotersUnique post) : VotersUnique (applyVote kind post u now) := by
  obtain ⟨hup, hdown⟩ := h
  change (voters post.question.upvotes).Nodup at hup
  change (voters post.question.downvotes).Nodup at hdown
  show (voters (applyVote kind post u now).question.upvotes).Nodup ∧
    (voters (applyVote kind post u now).question.downvotes).Nodup
  cases kind
  · simp only [applyVote, applyUpvote_upvotes, applyUpvote_downvotes]
    by_cases hu : u ∈ voters post.question.upvotes
    · simp only [hu, if_true]
      exact ⟨nodup_voters_filter _ _ hup, hdown⟩
    · simp only [hu, if_false]
      exact ⟨nodup_voters_append _ _ _ hup hu, nodup_voters_filter _ _ hdown⟩
  · simp only [applyVote, applyDownvote_upvotes, applyDownvote_downvotes]
    by_cases hu : u ∈ voters post.question.downvotes
    · simp only [hu, if_true]
      exact ⟨hup, nodup_voters_filter _ _ hdown⟩
    · simp only [hu, if_false]
      exact ⟨nodup_voters_filter _ _ hup, nodup_voters_append _ _ _ hdown hu⟩

/-- C18: the vote lists stay sets keyed by voter.  If every username has at most one
record in the upvotes and at most one in the downvotes of a stored post, the same
holds for the post a successful `upvotePost` or `downvotePost` returns, and for the
posts stored under an identifier after any sequence of vote requests; a post with
empty vote lists is such a post. -/
theorem voters_unique_after_votes (db : Driver) (store : Store) (postId : String)
    (context : Context) (now : String) (calls : List VoteCall) (i : String) :
    (∀ old post store', findById db store postId = .ok (some old) → VotersUnique old →
      upvotePost db store postId context now = .ok (post, store') → VotersUnique post) ∧
    (∀ old post store', findById db store postId = .ok (some old) → VotersUnique old →
      downvotePost db store postId context now = .ok (post, store') → VotersUnique post) ∧
    ((∀ p ∈ store, p.id = i → VotersUnique p) →
      ∀ p ∈ runVotes db store calls, p.id = i → VotersUnique p) ∧
    (∀ p : Post, p.question.upvotes = [] → p.question.downvotes = [] → VotersUnique p) := by
  have key : ∀ kind old post store', findById db store postId = .ok (some old) →
      VotersUnique old →
      callVote db store ⟨kind, postId, context, now⟩ = .ok (post, store') →
      VotersUnique post := by
    intro kind old post store' hf hu h
    obtain ⟨user, old', _, hf', hpost, _⟩ := callVote_ok db store _ post store' h
    have heq : old' = old := by
      have h1 : findById db store postId = .ok (some old') := hf'
      rw [hf] at h1
      simpa using h1.symm
    rw [hpost, heq]
    exact applyVote_votersUnique _ _ _ _ hu
  refine ⟨fun old post store' hf hu h => key .up old post store' hf hu h,
    fun old post store' hf hu h => key .down old post store' hf hu h,
    fun h => runVotes_invariant db VotersUnique applyVote_votersUnique calls store i h, ?_⟩
  intro p hup hdown
  simp [VotersUnique, hup, hdown]

/-- C18 on a post with empty vote lists, after two upvotes and a downvote by `A` and an
upvote by `B`. -/
theorem voters_unique_after_votes_witness :
    (∀ p ∈ [mkPost "p1" true [] [] [] 0], p.id = "p1" → VotersUnique p) ∧
      ∀ p ∈ runVotes demoDriver [mkPost "p1" true [] [] [] 0]
          [⟨.up, "p1", asUser "A", "t1"⟩, ⟨.up, "p1", asUser "A", "t2"⟩,
            ⟨.down, "p1", asUser "A", "t3"⟩, ⟨.up, "p1", asUser "B", "t4"⟩],
        p.id = "p1" → VotersUnique p :=
  have h0 : ∀ p ∈ [mkPost "p1" true [] [] [] 0], p.id = "p1" → VotersUnique p := by
    intro p hp _
    rw [List.mem_singleton] at hp
    subst hp
    simp [VotersUnique, mkPost]
  ⟨h0, (voters_unique_after_votes demoDriver _ "p1" (asUser "A") "t1" _ "p1").2.2.1 h0⟩

theorem length_filter_ne (votes : List Vote) (u : String) :
    (votes.filter (fun v => v.username != u)).length + (voters votes).count u
      = votes.length := by
  induction votes with
  | nil => rfl
  | cons v t ih =>
    simp only [voters, List.map_cons, List.count_cons, List.filter_cons,
      List.length_cons] at ih ⊢
    by_cases h : v.username = u
    · simp only [h, bne_self_eq_false, Bool.false_eq_true, if_false, beq_self_eq_true,
        if_true]
      omega
    · have hb : (v.username != u) = true := by simpa using h
      have hb' : (v.username == u) = false := by simpa using h
      simp only [hb, hb', if_true, List.length_cons, Bool.false_eq_true, if_false]
      omega

theorem applyUpvote_delta (post : Post) (u now : String) (hc : CountOk post)
    (h1 : (voters post.question.upvotes).count u
      + (voters post.question.downvotes).count u ≤ 1) :
    (u ∈ voters post.question.upvotes →
      (applyUpvote post u now).question.voteCount = post.question.voteCount - 1) ∧
    (u ∈ voters post.question.downvotes →
      (applyUpvote post u now).question.voteCount = post.question.voteCount + 2) ∧
    (u ∉ voters post.question.upvotes → u ∉ voters post.question.downvotes →
      (applyUpvote post u now).question.voteCount = post.question.voteCount + 1) := by
  unfold CountOk at hc
  have ha := length_filter_ne post.question.upvotes u
  have hb := length_filter_ne post.question.downvotes u
  have hv := applyUpvote_voteCount post u now
  rw [applyUpvote_upvotes, applyUpvote_downvotes] at hv
  refine ⟨?_, ?_, ?_⟩
  · intro hu
    have hpos := List.count_pos_iff.mpr hu
    simp only [hu, if_true] at hv
    omega
  · intro hd
    have hpos := List.count_pos_iff.mpr hd
    have hu : u ∉ voters post.question.upvotes := by
      intro hu
      have := List.count_pos_iff.mpr hu
      omega
    simp only [hu, if_false, List.length_append, List.length_singleton] at hv
    omega
  · intro hu hd
    have hz := List.count_eq_zero_of_not_mem hd
    simp only [hu, if_false, List.length_append, List.length_singleton] at hv
    omega

theorem applyDownvote_delta (post : Post) (u now : String) (hc : CountOk post)
    (h1 : (voters post.question.upvotes).count u
      + (voters post.question.downvotes).count u ≤ 1) :
    (u ∈ voters post.question.downvotes →
      (applyDownvote post u now).question.voteCount = post.question.voteCount + 1) ∧
    (u ∈ voters post.question.upvotes →
      (applyDownvote post u now).question.voteCount = post.question.voteCount - 2) ∧
    (u ∉ voters post.question.upvotes → u ∉ voters post.question.downvotes →
      (applyDownvote post u now).question.voteCount = post.question.voteCount - 1) := by
  unfold CountOk at hc
  have ha := length_filter_ne post.question.upvotes u
  have hb := length_filter_ne post.question.downvotes u
  have hv := applyDownvote_voteCount post u now
  rw [applyDownvote_upvotes, applyDownvote_downvotes] at hv
  refine ⟨?_, ?_, ?_⟩
  · intro hd
    have hpos := List.count_pos_iff.mpr hd
    simp only [hd, if_true] at hv
    omega
  · intro hu
    have hpos := List.count_pos_iff.mpr hu
    have hd : u ∉ voters post.question.downvotes := by
      intro hd
      have := List.count_pos_iff.mpr hd
      omega
    simp only [hd, if_false, List.length_append, List.length_singleton] at hv
    omega
  · intro hu hd
    have hz := List.count_eq_zero_of_not_mem hu
    simp only [hd, if_false, List.length_append, List.length_singleton] at hv
    omega

/-- C19: on a stored post whose count equals the length of its upvotes minus the
length of its downvotes and in which the authenticated caller `u` has at most one
record in the two vote lists together, `upvotePost` succeeds and changes the count by
-1 when `u` had an upvote, by +2 when `u` had a downvote and by +1 when `u` had no vote;
`downvotePost` succeeds and changes it by +1, -2 and -1 in the mirrored cases.  In
each case the change is not 0 and at most 2 in magnitude. -/
theorem voteCount_delta (db : Driver) (store : Store) (postId : String) (context : Context)
    (now : String) (user : User) (old : Post)
    (hauth : checkAuth context = .ok user)
    (hfind : findById db store postId = .ok (some old))
    (hc : CountOk old)
    (h1 : (voters old.question.upvotes).count user.username
      + (voters old.question.downvotes).count user.username ≤ 1) :
    (∃ p s, upvotePost db store postId context now = .ok (p, s) ∧
      (user.username ∈ voters old.question.upvotes →
        p.question.voteCount = old.question.voteCount - 1) ∧
      (user.username ∈ voters old.question.downvotes →
        p.question.voteCount = old.question.voteCount + 2) ∧
      (user.username ∉ voters old.question.upvotes →
        user.username ∉ voters old.question.downvotes →
        p.question.voteCount = old.question.voteCount + 1) ∧
      p.question.voteCount ≠ old.question.voteCount ∧
      |p.question.voteCount - old.question.voteCount| ≤ 2) ∧
    (∃ p s, downvotePost db store postId context now = .ok (p, s) ∧
      (user.username ∈ voters old.question.downvotes →
        p.question.voteCount = old.question.voteCount + 1) ∧
      (user.username ∈ voters old.question.upvotes →
        p.question.voteCount = old.question.voteCount - 2) ∧
      (user.username ∉ voters old.question.upvotes →
        user.username ∉ voters old.question.downvotes →
        p.question.voteCount = old.question.voteCount - 1) ∧
      p.question.voteCount ≠ old.question.voteCount ∧
      |p.question.voteCount - old.question.voteCount| ≤ 2) := by
  constructor
  · obtain ⟨ha, hb, hn⟩ := applyUpvote_delta old user.username now hc h1
    refine ⟨_, _, upvotePost_eq db store postId context now user old hauth hfind,
      ha, hb, hn, ?_, ?_⟩
    · by_cases hu : user.username ∈ voters old.question.upvotes
      · have := ha hu; omega
      · by_cases hd : user.username ∈ voters old.question.downvotes
        · have := hb hd; omega
        · have := hn hu hd; omega
    · rw [abs_le]
      by_cases hu : user.username ∈ voters old.question.upvotes
      · have := ha hu; constructor <;> omega
      · by_cases hd : user.username ∈ voters old.question.downvotes
        · have := hb hd; constructor <;> omega
        · have := hn hu hd; constructor <;> omega
  · obtain ⟨ha, hb, hn⟩ := applyDownvote_delta old user.username now hc h1
    refine ⟨_, _, downvotePost_eq db store postId context now user old hauth hfind,
      ha, hb, hn, ?_, ?_⟩
    · by_cases hd : user.username ∈ voters old.question.downvotes
      · have := ha hd; omega
      · by_cases hu : user.username ∈ voters old.question.upvotes
        · have := hb hu; omega
        · have := hn hu hd; omega
    · rw [abs_le]
      by_cases hd : user.username ∈ voters old.question.downvotes
      · have := ha hd; constructor <;> omega
      · by_cases hu : user.username ∈ voters old.question.upvotes
        · have := hb hu; constructor <;> omega
        · have := hn hu hd; constructor <;> omega

/-- C19 on a post upvoted by `B` and downvoted by `A`, with count 0: an upvote by `A`
makes the count 2. -/
theorem voteCount_delta_witness :
    (∃ p s, upvotePost demoDriver [mkPost "p1" true [] [⟨"B", "t0"⟩] [⟨"A", "t0"⟩] 0] "p1"
        (asUser "A") "t1" = .ok (p, s) ∧
      ("A" ∈ voters [(⟨"B", "t0"⟩ : Vote)] → p.question.voteCount = (0 : Int) - 1) ∧
      ("A" ∈ voters [(⟨"A", "t0"⟩ : Vote)] → p.question.voteCount = (0 : Int) + 2) ∧
      ("A" ∉ voters [(⟨"B", "t0"⟩ : Vote)] → "A" ∉ voters [(⟨"A", "t0"⟩ : Vote)] →
        p.question.voteCount = (0 : Int) + 1) ∧
      p.question.voteCount ≠ 0 ∧ |p.question.voteCount - 0| ≤ 2) ∧
      upvotePost demoDriver [mkPost "p1" true [] [⟨"B", "t0"⟩] [⟨"A", "t0"⟩] 0] "p1"
        (asUser "A") "t1"
        = .ok (mkPost "p1" true [] [⟨"B", "t0"⟩, ⟨"A", "t1"⟩] [] 2,
            [mkPost "p1" true [] [⟨"B", "t0"⟩, ⟨"A", "t1"⟩] [] 2]) :=
  ⟨(voteCount_delta demoDriver [mkPost "p1" true [] [⟨"B", "t0"⟩] [⟨"A", "t0"⟩] 0] "p1"
    (asUser "A") "t1" ⟨"A", "A"⟩ (mkPost "p1" true [] [⟨"B", "t0"⟩] [⟨"A", "t0"⟩] 0)
    rfl rfl rfl (by decide)).1, rfl⟩

/-! ## Claim on the unfiltered pages -/

theorem normalizePage_pos (k : Int) (hk : 0 < k) : normalizePage (some k) = k.toNat := by
  rw [normalizePage_some]
  have : k ≠ 0 := by omega
  simp only [this, if_false]
  omega

theorem mathCeilDiv_four_bounds (n : Nat) :
    n ≤ 4 * mathCeilDiv n 4 ∧ (0 < mathCeilDiv n 4 → 4 * (mathCeilDiv n 4 - 1) < n) := by
  unfold mathCeilDiv
  split <;> constructor <;> omega

theorem flatMap_chunks (l : List Post) (m : Nat) :
    (List.range m).flatMap (fun k => (l.drop (4 * k)).take 4) = l.take (4 * m) := by
  induction m with
  | zero => simp
  | succ m ih =>
    rw [List.range_succ, List.flatMap_append, ih]
    simp only [List.flatMap_cons, List.flatMap_nil, List.append_nil]
    rw [Nat.mul_succ, List.take_add]

theorem getPosts_plain_pos (db : Driver) (store : Store) (tag search : Option String)
    (featured : Bool) (k : Int) (hk : 0 < k) (ht : supplied tag = none)
    (hs : supplied search = none) :
    getPosts db store (some k) tag search featured
      = .ok (paginate store (featuredFilter featured) k.toNat) := by
  rw [getPosts_plain db store (some k) tag search featured ht hs, normalizePage_pos k hk]

theorem paginate_posts (store : Store) (featured : Bool) (k : Nat) :
    (paginate store (featuredFilter featured) k).posts
      = ((store.filter (fun p => p.featured == featured)).drop (4 * (k - 1))).take 4 := rfl

theorem paginate_totalPages (store : Store) (featured : Bool) (k : Nat) :
    (paginate store (featuredFilter featured) k).totalPages
      = mathCeilDiv (store.filter (fun p => p.featured == featured)).length 4 := rfl

/-- C20: unfiltered pages partition the matching posts.  With neither tag nor search
supplied, every positive page returns a result with the same `totalPages`; the posts
of the pages 1, 2, ..., `totalPages` concatenated in this order are exactly the stored
posts with the requested featured flag in storage order; every page from 1 to
`totalPages` is non-empty and every page beyond `totalPages` is empty. -/
theorem unfiltered_pages_partition (db : Driver) (store : Store) (tag search : Option String)
    (featured : Bool) (ht : supplied tag = none) (hs : supplied search = none) :
    ∃ r1, getPosts db store (some 1) tag search featured = .ok r1 ∧
      (List.range r1.totalPages).flatMap
          (fun k => postsOf (getPosts db store (some ((k : Int) + 1)) tag search featured))
        = store.filter (fun p => p.featured == featured) ∧
      (∀ k : Int, 1 ≤ k → k ≤ (r1.totalPages : Int) →
        ∃ r, getPosts db store (some k) tag search featured = .ok r ∧
          r.totalPages = r1.totalPages ∧ r.posts ≠ []) ∧
      (∀ k : Int, (r1.totalPages : Int) < k →
        ∃ r, getPosts db store (some k) tag search featured = .ok r ∧
          r.totalPages = r1.totalPages ∧ r.posts = []) := by
  obtain ⟨l, hl⟩ : ∃ l, l = store.filter (fun p => p.featured == featured) := ⟨_, rfl⟩
  have hb := mathCeilDiv_four_bounds l.length
  refine ⟨_, getPosts_plain_pos db store tag search featured 1 (by decide) ht hs, ?_, ?_, ?_⟩
  · have hfun : ∀ k : Nat,
        postsOf (getPosts db store (some ((k : Int) + 1)) tag search featured)
          = (l.drop (4 * k)).take 4 := by
      intro k
      rw [getPosts_plain_pos db store tag search featured _ (by omega) ht hs]
      show (paginate store (featuredFilter featured) ((k : Int) + 1).toNat).posts = _
      rw [paginate_posts, ← hl]
      have : ((k : Int) + 1).toNat - 1 = k := by omega
      rw [this]
    simp only [hfun]
    rw [paginate_totalPages, ← hl, flatMap_chunks, List.take_of_length_le hb.1]
  · intro k hk1 hk2
    refine ⟨_, getPosts_plain_pos db store tag search featured k (by omega) ht hs, rfl, ?_⟩
    rw [paginate_posts, ← hl]
    rw [paginate_totalPages, ← hl] at hk2
    apply List.ne_nil_of_length_pos
    rw [List.length_take, List.length_drop]
    have := hb.2 (by omega)
    omega
  · intro k hk
    refine ⟨_, getPosts_plain_pos db store tag search featured k (by omega) ht hs, rfl, ?_⟩
    rw [paginate_posts, ← hl]
    rw [paginate_totalPages, ← hl] at hk
    rw [List.drop_eq_nil_of_le (by omega)]
    rfl

/-- C20 on the five featured posts of `demoStore`: two pages, of four posts and of one,
and an empty third page. -/
theorem unfiltered_pages_partition_witness :
    supplied none = none ∧
      (∃ r1, getPosts demoDriver demoStore (some 1) none none true = .ok r1 ∧
        (List.range r1.totalPages).flatMap
            (fun k => postsOf (getPosts demoDriver demoStore (some ((k : Int) + 1)) none none
              true))
          = demoStore.filter (fun p => p.featured == true) ∧
        (∀ k : Int, 1 ≤ k → k ≤ (r1.totalPages : Int) →
          ∃ r, getPosts demoDriver demoStore (some k) none none true = .ok r ∧
            r.totalPages = r1.totalPages ∧ r.posts ≠ []) ∧
        (∀ k : Int, (r1.totalPages : Int) < k →
          ∃ r, getPosts demoDriver demoStore (some k) none none true = .ok r ∧
            r.totalPages = r1.totalPages ∧ r.posts = [])) ∧
      getPosts demoDriver demoStore (some 3) none none true = .ok ⟨[], 2, 5⟩ :=
  ⟨rfl, unfiltered_pages_partition demoDriver demoStore none none true rfl rfl, rfl⟩

end StackUnderflow
